import Mathlib

/-!
Manifest validation of `template/config/manifest.go`.

A shallow embedding of `ValidateManifest`, `validateManifestVersion` and
`validateManifestParams`, together with the library routines they call
(`strconv.Atoi`, `strconv.ParseBool`, `semver.Make`, `Version.GT`).

Conventions of the embedding.

* A Go `string` is a Lean `String`: text in UTF-8, as the YAML decoder
  delivers it.  The library loops that walk a Go string byte by byte are
  written character by character: the only bytes those loops single out are
  ASCII (`'0'..'9'`, `'+'`, `'-'`, `'.'`), and every byte of a multi-byte
  UTF-8 sequence is `≥ 0x80`, so both walks reject or accept the same text.
  `len(s)` is the UTF-8 byte length.
* `strconv`, `strings` and `github.com/blang/semver` are libraries the
  repository imports; their code is not among the repository's sources.  Their
  routines are written here after the libraries' algorithms, restricted to the
  arguments `manifest.go` passes, and are marked as such one by one.
* A Go `error` result is `Option Error` (`none` is `nil`).
* A pointer is an `Option`; dereferencing `none` is a run-time panic, which is
  an explicit outcome of the functions that dereference.
* A slice that the code compares with `nil` is an `Option (List _)`.
* `int` and `uint` are 64 bits wide; arithmetic that can wrap carries an
  explicit `% 2 ^ 64`.
-/

/-! ## Error values -/

namespace strconv

/-- Modelled from the spec: the sentinel errors `strconv.ErrSyntax` and
`strconv.ErrRange` of the Go standard library (not under src/), the two
errors a `*strconv.NumError` of a base-10 parse can wrap. -/
inductive NumErrKind where
  | ErrSyntax
  | ErrRange
  deriving DecidableEq, Repr

end strconv

/-- The error values that reach the validator: `errors.New(text)`,
`fmt.Errorf(format, a)` with one string operand (kept unformatted), and
`&strconv.NumError{Func, Num, Err}`. -/
inductive Error where
  | New (text : String)
  | Errorf (format : String) (a : String)
  | NumError (Func : String) (Num : String) (Err : strconv.NumErrKind)
  deriving DecidableEq, Repr

deriving instance DecidableEq for Except

/-! ## `strconv` -/

namespace strconv

/-- Modelled from the spec: Go `strconv.IntSize` (standard library, not under
src/) on a 64-bit platform, the "platform's native signed-integer range" of
§4.3. -/
def IntSize : Nat := 64

/-- Modelled from the spec: the Go builtin `len(s)` on a string (not under src/): the
number of bytes of `s`. -/
def len (s : String) : Nat := s.utf8ByteSize

/-- Modelled from the spec: the byte test `'0' <= c && c <= '9'` of the `strconv`
loops (standard library, not under src/). -/
def isDigit (c : Char) : Bool := decide ('0'.toNat ≤ c.toNat ∧ c.toNat ≤ '9'.toNat)

/-- Modelled from the spec: Go `strconv.syntaxError(fn, str)` (standard library,
not under src/). -/
def syntaxError (fn str : String) : Error := Error.NumError fn str NumErrKind.ErrSyntax

/-- Modelled from the spec: Go `strconv.rangeError(fn, str)` (standard library,
not under src/). -/
def rangeError (fn str : String) : Error := Error.NumError fn str NumErrKind.ErrRange

/-- Modelled from the spec: the constant `maxUint64 = 1<<64 - 1` of `strconv`
(standard library, not under src/). -/
def maxUint64 : Nat := 2 ^ 64 - 1

/-- Modelled from the spec: the digit loop of Go `strconv.ParseUint(s, 10, 64)`
(standard library, not under src/), after the library's algorithm: `n` is the
accumulator, `s0` the original text for error values.  In base 10 every byte
that is not a decimal digit ends in `syntaxError` (an underscore because
`base0` is false, a letter because its digit value is `≥ base`).
`cutoff = maxUint64/10 + 1`, `maxVal = 1<<64 - 1`. -/
def ParseUintLoop (s0 : String) : List Char → Nat → Nat × Option Error
  | [], n => (n, none)
  | c :: cs, n =>
    if isDigit c then
      let d := c.toNat - '0'.toNat
      if n ≥ maxUint64 / 10 + 1 then
        (maxUint64, some (rangeError "ParseUint" s0))
      else
        let n10 := (n * 10) % 2 ^ 64
        let n1 := (n10 + d) % 2 ^ 64
        if n1 < n10 ∨ n1 > maxUint64 then
          (maxUint64, some (rangeError "ParseUint" s0))
        else ParseUintLoop s0 cs n1
    else (0, some (syntaxError "ParseUint" s0))

/-- Modelled from the spec: Go `strconv.ParseUint(s, 10, 64)` (standard library, not
under src/; also reached as `ParseUint(s, 10, 0)`, where `bitSize` becomes
`IntSize`): the value together with the error. -/
def ParseUint (s : String) : Nat × Option Error :=
  if s = "" then (0, some (syntaxError "ParseUint" s))
  else ParseUintLoop s s.data 0

/-- Modelled from the spec: the Go conversion `int64(un)` of a `uint64` (language
semantics, not under src/): reinterpretation in two's complement. -/
def toInt64 (un : Nat) : Int :=
  if un % 2 ^ 64 < 2 ^ 63 then (un % 2 ^ 64 : Nat) else (un % 2 ^ 64 : Nat) - 2 ^ 64

/-- Modelled from the spec: the Go negation `-n` of an `int64` (language semantics,
not under src/), wrapping at `-1<<63`. -/
def negInt64 (n : Int) : Int :=
  if n = -(2 ^ 63) then n else -n

/-- Modelled from the spec: Go `strconv.ParseInt(s, 10, 0)` (standard library, not
under src/), after the library's algorithm: the value together with the
error. -/
def ParseInt (s : String) : Int × Option Error :=
  if s = "" then (0, some (syntaxError "ParseInt" s))
  else
    let s0 := s
    let neg := s.data.head? = some '-'
    let t := if s.data.head? = some '+' ∨ s.data.head? = some '-' then String.mk s.data.tail else s
    match ParseUint t with
    | (_, some (Error.NumError _ _ NumErrKind.ErrSyntax)) => (0, some (syntaxError "ParseInt" s0))
    | (un, _) =>
      let cutoff := 2 ^ (IntSize - 1)
      if ¬ neg ∧ un ≥ cutoff then ((cutoff : Int) - 1, some (rangeError "ParseInt" s0))
      else if neg ∧ un > cutoff then (-(cutoff : Int), some (rangeError "ParseInt" s0))
      else (if neg then negInt64 (toInt64 un) else toInt64 un, none)

/-- Modelled from the spec: the digit loop of the fast path of Go `strconv.Atoi`
(standard library, not under src/): `ch -= '0'; if ch > 9` fails with
`ErrSyntax`, otherwise `n = n*10 + int(ch)`. -/
def AtoiLoop (s0 : String) : List Char → Int → Int × Option Error
  | [], n => (n, none)
  | ch :: cs, n =>
    if isDigit ch then AtoiLoop s0 cs (n * 10 + ((ch.toNat - '0'.toNat : Nat) : Int))
    else (0, some (syntaxError "Atoi" s0))

/-- Modelled from the spec: Go `strconv.Atoi(s)` (standard library, not under src/), the
parser §4.3 describes as "a base-10 integer (sign allowed, no decimal point, no
thousands separators, within the platform's native signed-integer range)",
after the library's algorithm.  Strings of 1 to 18 bytes take the fast path,
every other string goes through `ParseInt(s, 10, 0)` and has the `Func` of a
`*NumError` rewritten to `"Atoi"`. -/
def Atoi (s : String) : Int × Option Error :=
  if 0 < len s ∧ len s < 19 then
    let s0 := s
    let signed := s.data.head? = some '-' ∨ s.data.head? = some '+'
    let t := if signed then s.data.tail else s.data
    if signed ∧ t.length < 1 then (0, some (Error.NumError "Atoi" s0 NumErrKind.ErrSyntax))
    else
      match AtoiLoop s0 t 0 with
      | (_, some e) => (0, some e)
      | (n, none) => (if s0.data.head? = some '-' then -n else n, none)
  else
    match ParseInt s with
    | (i64, some (Error.NumError _ num k)) => (i64, some (Error.NumError "Atoi" num k))
    | (i64, err) => (i64, err)

/-- Modelled from the spec: Go `strconv.ParseBool(str)` (standard library, not under
src/), the parser of "the canonical boolean literal spellings" of §4.3. -/
def ParseBool (str : String) : Bool × Option Error :=
  if str = "1" ∨ str = "t" ∨ str = "T" ∨ str = "true" ∨ str = "TRUE" ∨ str = "True" then
    (true, none)
  else if str = "0" ∨ str = "f" ∨ str = "F" ∨ str = "false" ∨ str = "FALSE" ∨ str = "False" then
    (false, none)
  else (false, some (syntaxError "ParseBool" str))

end strconv

/-! ## `strings` -/

namespace strings

/-- Modelled from the spec: the step `m := Index(s, sep)` of Go `strings.genSplit`
(standard library, not under src/) followed by the slices `s[:m]` and
`s[m+len(sep):]`, for a one-byte ASCII separator: `none` when `sep` does not
occur (`m < 0`), else the text before and after its first occurrence.  Also
`strings.IndexRune` with the two slices `Parse` takes at the index. -/
def cut (sep : Char) : List Char → Option (List Char × List Char)
  | [] => none
  | c :: cs =>
    if c = sep then some ([], cs)
    else
      match cut sep cs with
      | none => none
      | some (a, b) => some (c :: a, b)

/-- Modelled from the spec: Go `strings.Count(s, sep)` (standard library, not under
src/) for a one-byte separator. -/
def Count (sep : Char) (s : List Char) : Nat := s.count sep

/-- Modelled from the spec: the loop `for i < n` of Go `strings.genSplit`
(standard library, not under src/): `n` counts the cuts still allowed; the rest
of the text is the last piece. -/
def genSplitLoop (sep : Char) : Nat → List Char → List (List Char)
  | 0, s => [s]
  | n + 1, s =>
    match cut sep s with
    | none => [s]
    | some (a, b) => a :: genSplitLoop sep n b

/-- Modelled from the spec: Go `strings.SplitN(s, sep, n)` (standard library, not under
src/) for a one-byte separator and `n ≥ 0`. -/
def SplitN (s : String) (sep : Char) (n : Nat) : List String :=
  if n = 0 then []
  else (genSplitLoop sep (n - 1) s.data).map String.mk

/-- Modelled from the spec: Go `strings.Split(s, sep)` (standard library, not under
src/) for a one-byte separator: `genSplit` with `n = Count(s, sep) + 1`. -/
def Split (s : String) (sep : Char) : List String :=
  (genSplitLoop sep (Count sep s.data) s.data).map String.mk

end strings

/-! ## `github.com/blang/semver` -/

namespace semver

/-- Modelled from the spec: the constant `numbers` of `github.com/blang/semver` (not
under src/). -/
def numbers : String := "0123456789"

/-- Modelled from the spec: the constant `alphanum` of `github.com/blang/semver` (not
under src/). -/
def alphanum : String := "abcdefghijklmnopqrstuvwxyzABCDEFGHIJKLMNOPQRSTUVWXYZ0123456789-"

/-- Modelled from the spec: the struct `PRVersion` of `github.com/blang/semver`
(not under src/), one pre-release field of a version. -/
structure PRVersion where
  VersionStr : String
  VersionNum : Nat
  IsNum : Bool
  deriving DecidableEq, Repr

/-- Modelled from the spec: the struct `Version` of `github.com/blang/semver`
(not under src/), a parsed semantic version: "major.minor.patch, optional
pre-release/build metadata" (§4.2). -/
structure Version where
  Major : Nat
  Minor : Nat
  Patch : Nat
  Pre : List PRVersion
  Build : List String
  deriving DecidableEq, Repr

/-- Modelled from the spec: the helper `containsOnly(s, set)` of
`github.com/blang/semver` (not under src/): no rune of `s` lies outside `set`. -/
def containsOnly (s set : String) : Bool :=
  s.data.all fun r => set.data.contains r

/-- Modelled from the spec: the helper `hasLeadingZeroes(s)` of
`github.com/blang/semver` (not under src/): `len(s) > 1 && s[0] == '0'`. -/
def hasLeadingZeroes (s : String) : Bool :=
  decide (strconv.len s > 1) && decide (s.data.head? = some '0')

/-- Modelled from the spec: `semver.NewPRVersion(s)` of `github.com/blang/semver`
(not under src/), after the library's algorithm. -/
def NewPRVersion (s : String) : Except Error PRVersion :=
  if strconv.len s = 0 then Except.error (Error.New "Prerelease is empty")
  else if containsOnly s numbers then
    if hasLeadingZeroes s then
      Except.error (Error.Errorf "Numeric PreRelease version must not contain leading zeroes %q" s)
    else
      match strconv.ParseUint s with
      | (_, some err) => Except.error err
      | (num, none) => Except.ok { VersionStr := "", VersionNum := num, IsNum := true }
  else if containsOnly s alphanum then
    Except.ok { VersionStr := s, VersionNum := 0, IsNum := false }
  else Except.error (Error.Errorf "Invalid character(s) found in prerelease %q" s)

/-- Modelled from the spec: the loop `for _, prstr := range prerelease` of
`semver.Parse` (`github.com/blang/semver`, not under src/): the parsed fields
in order, or the first error. -/
def parsePrerelease : List String → Except Error (List PRVersion)
  | [] => Except.ok []
  | prstr :: rest =>
    match NewPRVersion prstr with
    | Except.error err => Except.error err
    | Except.ok parsedPR =>
      match parsePrerelease rest with
      | Except.error err => Except.error err
      | Except.ok pre => Except.ok (parsedPR :: pre)

/-- Modelled from the spec: the loop `for _, str := range build` of `semver.Parse`
(`github.com/blang/semver`, not under src/): the first error, if any. -/
def checkBuild : List String → Option Error
  | [] => none
  | str :: rest =>
    if strconv.len str = 0 then some (Error.New "Build meta data is empty")
    else if ¬ containsOnly str alphanum then
      some (Error.Errorf "Invalid character(s) found in build meta data %q" str)
    else checkBuild rest

/-- Modelled from the spec: one numeric field of `semver.Parse` (major, minor or
patch; `github.com/blang/semver`, not under src/): `containsOnly`,
`hasLeadingZeroes`, then `strconv.ParseUint(part, 10, 64)`; `invalid` and
`leading` are the formats of the two messages of that field. -/
def parseNumber (invalid leading : String) (part : String) : Except Error Nat :=
  if ¬ containsOnly part numbers then Except.error (Error.Errorf invalid part)
  else if hasLeadingZeroes part then Except.error (Error.Errorf leading part)
  else
    match strconv.ParseUint part with
    | (_, some err) => Except.error err
    | (n, none) => Except.ok n

/-- Modelled from the spec: the tail of `semver.Parse` (`github.com/blang/semver`,
not under src/) after the split into `major.minor.(patch+pr+meta)`. -/
def parseParts (p0 p1 p2 : String) : Except Error Version :=
  match parseNumber "Invalid character(s) found in major number %q"
      "Major number must not contain leading zeroes %q" p0 with
  | Except.error err => Except.error err
  | Except.ok major =>
    match parseNumber "Invalid character(s) found in minor number %q"
        "Minor number must not contain leading zeroes %q" p1 with
    | Except.error err => Except.error err
    | Except.ok minor =>
      let (patchStr, build) :=
        match strings.cut '+' p2.data with
        | some (a, b) => (String.mk a, strings.Split (String.mk b) '.')
        | none => (p2, [])
      let (patchStr, prerelease) :=
        match strings.cut '-' patchStr.data with
        | some (a, b) => (String.mk a, strings.Split (String.mk b) '.')
        | none => (patchStr, [])
      match parseNumber "Invalid character(s) found in patch number %q"
          "Patch number must not contain leading zeroes %q" patchStr with
      | Except.error err => Except.error err
      | Except.ok patch =>
        match parsePrerelease prerelease with
        | Except.error err => Except.error err
        | Except.ok pre =>
          match checkBuild build with
          | some err => Except.error err
          | none =>
            Except.ok { Major := major, Minor := minor, Patch := patch, Pre := pre, Build := build }

/-- Modelled from the spec: `semver.Parse(s)` of `github.com/blang/semver` (not under
src/), the parser of "the standard semantic-versioning grammar" of §4.2, after
the library's algorithm. -/
def Parse (s : String) : Except Error Version :=
  if strconv.len s = 0 then Except.error (Error.New "Version string empty")
  else
    match strings.SplitN s '.' 3 with
    | [p0, p1, p2] => parseParts p0 p1 p2
    | _ => Except.error (Error.New "No Major.Minor.Patch elements found")

/-- Modelled from the spec: `semver.Make(s)` of `github.com/blang/semver` (not under
src/), an alias of `Parse`. -/
def Make (s : String) : Except Error Version := Parse s

/-- Modelled from the spec: the three-way comparison of two unsigned numbers, as the
`if a != b` ladders of `PRVersion.Compare` (`github.com/blang/semver`, not under
src/) compute it. -/
def cmpNat (a b : Nat) : Int :=
  if a = b then 0 else if a > b then 1 else -1

/-- Modelled from the spec: `PRVersion.Compare` of `github.com/blang/semver`
(not under src/): the "pre-release precedence rules" of §4.2 on one field. -/
def PRVersion.Compare (v o : PRVersion) : Int :=
  if v.IsNum ∧ ¬ o.IsNum then -1
  else if ¬ v.IsNum ∧ o.IsNum then 1
  else if v.IsNum ∧ o.IsNum then cmpNat v.VersionNum o.VersionNum
  else if v.VersionStr = o.VersionStr then 0
  else if v.VersionStr > o.VersionStr then 1
  else -1

/-- Modelled from the spec: the loop over the common pre-release fields in
`Version.Compare` (`github.com/blang/semver`, not under src/) and the length
comparison after it. -/
def comparePre : List PRVersion → List PRVersion → Int
  | [], [] => 0
  | [], _ :: _ => -1
  | _ :: _, [] => 1
  | a :: v, b :: o =>
    if PRVersion.Compare a b = 0 then comparePre v o
    else if PRVersion.Compare a b = 1 then 1
    else -1

/-- Modelled from the spec: `Version.Compare` of `github.com/blang/semver` (not
under src/): "standard semantic-version ordering (major, then minor, then
patch, then pre-release precedence rules)" (§4.2). -/
def Version.Compare (v o : Version) : Int :=
  if v.Major ≠ o.Major then (if v.Major > o.Major then 1 else -1)
  else if v.Minor ≠ o.Minor then (if v.Minor > o.Minor then 1 else -1)
  else if v.Patch ≠ o.Patch then (if v.Patch > o.Patch then 1 else -1)
  else if v.Pre.length = 0 ∧ o.Pre.length = 0 then 0
  else if v.Pre.length = 0 ∧ o.Pre.length > 0 then 1
  else if v.Pre.length > 0 ∧ o.Pre.length = 0 then -1
  else comparePre v.Pre o.Pre

/-- Modelled from the spec: `Version.GT` of `github.com/blang/semver` (not under
src/): `v.Compare(o) == 1`. -/
def Version.GT (v o : Version) : Bool := decide (v.Compare o = 1)

/-- Modelled from the spec: `Version.LE` of `github.com/blang/semver` (not under
src/): `v.Compare(o) <= 0`. -/
def Version.LE (v o : Version) : Bool := decide (v.Compare o ≤ 0)

end semver

/-! ## `template/config/manifest.go` -/

namespace config

/-- Constant `maxCompatManifestVersion`. -/
def maxCompatManifestVersion : String := "1.0.0"

/-- Constant `StringType`. -/
def StringType : String := "string"

/-- Constant `IntegerType`. -/
def IntegerType : String := "integer"

/-- Constant `BooleanType`. -/
def BooleanType : String := "boolean"

/-- Struct `Parameter`.  `Typ` is the field `Type` (a reserved word here);
`Enum` is a slice the validator compares with `nil`. -/
structure Parameter where
  Name : String
  Prompt : String
  Typ : String
  Enum : Option (List String)
  Description : String
  DefaultValue : String
  deriving DecidableEq, Repr

/-- Struct `ManifestFile`.  `Parameters` is a slice of pointers; it is only
ranged over, so a `nil` slice is the empty list. -/
structure ManifestFile where
  Version : String
  Parameters : List (Option Parameter)
  deriving DecidableEq, Repr

/-- What a call of a validator does: it panics on a nil dereference, or it
returns `nil` or an error. -/
inductive Outcome where
  | panic
  | ret (err : Option Error)
  deriving DecidableEq, Repr

/-- Function `validateManifestVersion` (lines 63-83). -/
def validateManifestVersion (version : String) : Option Error :=
  if version = "" then some (Error.New "manifest file needs to provide a version")
  else
    match semver.Make version with
    | Except.error err => some err
    | Except.ok v =>
      match semver.Make maxCompatManifestVersion with
      | Except.error err => some err
      | Except.ok maxCompatVersion =>
        if v.GT maxCompatVersion then
          some (Error.Errorf "manifest version needs to be less than %s" maxCompatManifestVersion)
        else none

/-- The loop `for _, e := range p.Enum` of the integer branch (lines 98-103):
the error of the first element `strconv.Atoi` rejects. -/
def integerEnumLoop : List String → Option Error
  | [] => none
  | e :: es =>
    match (strconv.Atoi e).2 with
    | some err => some err
    | none => integerEnumLoop es

/-- The body of `if p.Typ == IntegerType` (lines 91-104): `some err` when it
returns `err`, `none` when control falls out of the block. -/
def integerBranch (p : Parameter) : Option Error :=
  match (if p.DefaultValue ≠ "" then (strconv.Atoi p.DefaultValue).2 else none) with
  | some err => some err
  | none =>
    match p.Enum with
    | some enum => integerEnumLoop enum
    | none => none

/-- The body of `if p.Typ == BooleanType` (lines 107-115): `some err` when it
returns `err`, `none` when control falls out of the block. -/
def booleanBranch (p : Parameter) : Option Error :=
  match (if p.DefaultValue ≠ "" then (strconv.ParseBool p.DefaultValue).2 else none) with
  | some err => some err
  | none =>
    if p.Enum ≠ none then some (Error.New "boolean type does not allow enums")
    else none

/-- Function `validateManifestParams` (lines 85-119).  Reading `p.Type` of a
nil entry panics. -/
def validateManifestParams : List (Option Parameter) → Outcome
  | [] => Outcome.ret none
  | none :: _ => Outcome.panic
  | some p :: params =>
    if p.Typ = "" then
      Outcome.ret (some (Error.New "every parameter defined in manifest needs to provide a type"))
    else
      match (if p.Typ = IntegerType then integerBranch p else none) with
      | some err => Outcome.ret (some err)
      | none =>
        match (if p.Typ = BooleanType then booleanBranch p else none) with
        | some err => Outcome.ret (some err)
        | none => validateManifestParams params

/-- Function `ValidateManifest` (lines 51-61).  Reading `m.Version` of a nil
manifest panics. -/
def ValidateManifest : Option ManifestFile → Outcome
  | none => Outcome.panic
  | some m =>
    match validateManifestVersion m.Version with
    | some err => Outcome.ret (some err)
    | none =>
      match validateManifestParams m.Parameters with
      | Outcome.panic => Outcome.panic
      | Outcome.ret (some err) => Outcome.ret (some err)
      | Outcome.ret none => Outcome.ret none

end config

/-! ## Notions the statements use -/

namespace config

/-- The error of line 65. -/
def missingVersionError : Error := Error.New "manifest file needs to provide a version"

/-- The error of line 79. -/
def incompatibleVersionError : Error :=
  Error.Errorf "manifest version needs to be less than %s" maxCompatManifestVersion

/-- The elements of `p.Enum`; a nil slice has none. -/
def Parameter.enumElems (p : Parameter) : List String := p.Enum.getD []

/-- The version `maxCompatManifestVersion` parses to. -/
def maxCompatVersion : semver.Version := ⟨1, 0, 0, [], []⟩

/-- Two parameters agree on `Type`, `Enum` and `DefaultValue`; `Name`,
`Prompt` and `Description` are free. -/
def Parameter.sameTyped (p q : Parameter) : Prop :=
  p.Typ = q.Typ ∧ p.Enum = q.Enum ∧ p.DefaultValue = q.DefaultValue

end config

namespace semver

/-- The error values `semver.Parse` can return, by their shape: its four fixed
messages, its nine formats, and a `*strconv.NumError` of `ParseUint`. -/
def isParseError : Error → Bool
  | Error.New text =>
    decide (text ∈ ["Version string empty", "No Major.Minor.Patch elements found",
      "Prerelease is empty", "Build meta data is empty"])
  | Error.Errorf format _ =>
    decide (format ∈ ["Invalid character(s) found in major number %q",
      "Major number must not contain leading zeroes %q",
      "Invalid character(s) found in minor number %q",
      "Minor number must not contain leading zeroes %q",
      "Invalid character(s) found in patch number %q",
      "Patch number must not contain leading zeroes %q",
      "Numeric PreRelease version must not contain leading zeroes %q",
      "Invalid character(s) found in prerelease %q",
      "Invalid character(s) found in build meta data %q"])
  | Error.NumError Func _ _ => decide (Func = "ParseUint")

end semver

namespace strconv

/-- The characters after the optional single leading sign of `d`. -/
def unsignedPart (d : String) : List Char :=
  if d.data.head? = some '+' ∨ d.data.head? = some '-' then d.data.tail else d.data

/-- Decimal syntax in the words of the specification: an optional single
leading `'+'` or `'-'`, then one or more ASCII decimal digits, and nothing
else. -/
def isDecimalLiteral (d : String) : Bool :=
  decide (unsignedPart d ≠ []) && (unsignedPart d).all isDigit

/-- The number a run of decimal digits denotes, continuing from `n`. -/
def digitsValue (n : Nat) (ds : List Char) : Nat :=
  ds.foldl (fun acc c => acc * 10 + (c.toNat - '0'.toNat)) n

/-- The integer a decimal literal denotes. -/
def decimalValue (d : String) : Int :=
  if d.data.head? = some '-' then -(digitsValue 0 (unsignedPart d) : Int)
  else (digitsValue 0 (unsignedPart d) : Int)

/-- The value of `d` lies in the range of the native signed integer,
`[-2^63, 2^63 - 1]`. -/
def fitsInt (d : String) : Prop :=
  -(2 ^ 63 : Int) ≤ decimalValue d ∧ decimalValue d ≤ 2 ^ 63 - 1

instance (d : String) : Decidable (fitsInt d) := by
  unfold fitsInt; infer_instance

end strconv

namespace semver

/-- An identifier character of the semantic-versioning grammar: an ASCII
letter, a decimal digit or a hyphen. -/
def isIdentChar (c : Char) : Bool :=
  decide (('a'.toNat ≤ c.toNat ∧ c.toNat ≤ 'z'.toNat) ∨ ('A'.toNat ≤ c.toNat ∧ c.toNat ≤ 'Z'.toNat) ∨
    ('0'.toNat ≤ c.toNat ∧ c.toNat ≤ '9'.toNat) ∨ c = '-')

/-- A build-metadata identifier of the semantic-versioning grammar: one or more
identifier characters. -/
def isBuildIdent (s : String) : Bool :=
  decide (s.data ≠ []) && s.data.all isIdentChar

/-- A pre-release identifier of the semantic-versioning grammar: one or more
identifier characters, without leading zero when all of them are digits. -/
def isPrereleaseIdent (s : String) : Bool :=
  isBuildIdent s &&
    (!(s.data.all strconv.isDigit) || decide (s.data.length = 1 ∨ s.data.head? ≠ some '0'))

/-- A numeric identifier has a value of at most `2^64 - 1`; an identifier with a
letter or hyphen meets this vacuously. -/
def numericFits (s : String) : Bool :=
  !(s.data.all strconv.isDigit) || decide (strconv.digitsValue 0 s.data ≤ strconv.maxUint64)

/-- The tag made of the identifiers `ids`, separated by dots. -/
def joinDots : List String → String
  | [] => ""
  | [a] => a
  | a :: b :: rest => a ++ "." ++ joinDots (b :: rest)

/-- A numeric identifier of the semantic-versioning grammar (major, minor,
patch): `0`, or a run of decimal digits that does not start with `0`. -/
def isNumericIdent (s : String) : Bool :=
  decide (s.data ≠ []) && s.data.all strconv.isDigit &&
    decide (s.data.length = 1 ∨ s.data.head? ≠ some '0')

/-- An optional tag of the grammar: nothing when there are no identifiers,
else the separator (`'-'` or `'+'`) and the identifiers joined by dots. -/
def tagData (sep : Char) : List String → List Char
  | [] => []
  | a :: rest => sep :: (joinDots (a :: rest)).data

/-- The semantic-versioning grammar, rule by rule:
`<valid semver> ::= <version core> [ "-" <pre-release> ] [ "+" <build> ]`,
`<version core> ::= <major> "." <minor> "." <patch>` with three numeric
identifiers, `<pre-release>` and `<build>` dot-separated pre-release and build
identifiers. -/
def ConformsToGrammar (v : String) : Prop :=
  ∃ (major minor patch : String) (pre build : List String),
    isNumericIdent major = true ∧ isNumericIdent minor = true ∧ isNumericIdent patch = true ∧
    (∀ s ∈ pre, isPrereleaseIdent s = true) ∧ (∀ s ∈ build, isBuildIdent s = true) ∧
    v.data = major.data ++ '.' :: minor.data ++ '.' :: patch.data ++
      tagData '-' pre ++ tagData '+' build

end semver

/-! ## Basic facts about the validators -/

namespace config

theorem Make_maxCompat :
    semver.Make maxCompatManifestVersion = Except.ok ⟨1, 0, 0, [], []⟩ := by decide

theorem validateManifestVersion_empty :
    validateManifestVersion "" = some missingVersionError := by decide

theorem validateManifestVersion_of_error {version : String} {e : Error}
    (hne : version ≠ "") (h : semver.Make version = Except.error e) :
    validateManifestVersion version = some e := by
  simp [validateManifestVersion, hne, h]

theorem validateManifestVersion_of_ok {version : String} {v : semver.Version}
    (h : semver.Make version = Except.ok v) :
    validateManifestVersion version =
      if v.GT ⟨1, 0, 0, [], []⟩ then some incompatibleVersionError else none := by
  have hne : version ≠ "" := by
    rintro rfl
    have h0 : semver.Make "" = Except.error (Error.New "Version string empty") := by decide
    rw [h0] at h
    cases h
  simp [validateManifestVersion, hne, h, Make_maxCompat, incompatibleVersionError]

theorem ValidateManifest_some (m : ManifestFile) :
    ValidateManifest (some m) =
      match validateManifestVersion m.Version with
      | some err => Outcome.ret (some err)
      | none => validateManifestParams m.Parameters := by
  simp only [ValidateManifest]
  cases validateManifestVersion m.Version with
  | some err => rfl
  | none =>
    simp only
    cases validateManifestParams m.Parameters with
    | panic => rfl
    | ret err => cases err <;> rfl

/-- One pass of the loop body of `validateManifestParams` on a non-nil entry. -/
theorem validateManifestParams_cons (p : Parameter) (params : List (Option Parameter)) :
    validateManifestParams (some p :: params) =
      if p.Typ = "" then
        Outcome.ret (some (Error.New "every parameter defined in manifest needs to provide a type"))
      else if p.Typ = IntegerType then
        match integerBranch p with
        | some err => Outcome.ret (some err)
        | none => validateManifestParams params
      else if p.Typ = BooleanType then
        match booleanBranch p with
        | some err => Outcome.ret (some err)
        | none => validateManifestParams params
      else validateManifestParams params := by
  rw [validateManifestParams]
  simp only [IntegerType, BooleanType]
  by_cases h0 : p.Typ = ""
  · simp [h0]
  · by_cases h1 : p.Typ = "integer"
    · simp [h1]
    · by_cases h2 : p.Typ = "boolean"
      · simp [h2]
      · simp [h0, h1, h2]

theorem validateManifestParams_single_boolean {p : Parameter} (h : p.Typ = "boolean") :
    validateManifestParams [some p] = Outcome.ret (booleanBranch p) := by
  rw [validateManifestParams_cons]
  simp only [IntegerType, BooleanType, h]
  cases booleanBranch p <;> simp [validateManifestParams]

theorem validateManifestParams_single_integer {p : Parameter} (h : p.Typ = "integer") :
    validateManifestParams [some p] = Outcome.ret (integerBranch p) := by
  rw [validateManifestParams_cons]
  simp only [IntegerType, BooleanType, h]
  cases integerBranch p <;> simp [validateManifestParams]

end config

/-! ## The errors of `semver.Parse` and the order against `1.0.0` -/

namespace strconv

theorem ParseUintLoop_error (s0 : String) (cs : List Char) (n : Nat) (e : Error)
    (h : (ParseUintLoop s0 cs n).2 = some e) : ∃ k, e = Error.NumError "ParseUint" s0 k := by
  induction cs generalizing n with
  | nil => simp [ParseUintLoop] at h
  | cons c cs ih =>
    rw [ParseUintLoop] at h
    split at h
    · simp only at h
      split at h
      · exact ⟨_, by simpa [rangeError] using h.symm⟩
      · split at h
        · exact ⟨_, by simpa [rangeError] using h.symm⟩
        · exact ih _ h
    · exact ⟨_, by simpa [syntaxError] using h.symm⟩

theorem ParseUint_error (s : String) (e : Error) (h : (ParseUint s).2 = some e) :
    ∃ k, e = Error.NumError "ParseUint" s k := by
  unfold ParseUint at h
  split at h
  · exact ⟨_, by simpa [syntaxError] using h.symm⟩
  · exact ParseUintLoop_error _ _ _ _ h

end strconv

namespace semver

theorem isParseError_of_ParseUint {s : String} {n : Nat} {e : Error}
    (h : strconv.ParseUint s = (n, some e)) : isParseError e = true := by
  obtain ⟨k, rfl⟩ := strconv.ParseUint_error s e (by rw [h])
  rfl

theorem parseNumber_error {invalid leading part : String} {e : Error}
    (h : parseNumber invalid leading part = Except.error e) :
    e = Error.Errorf invalid part ∨ e = Error.Errorf leading part ∨
      ∃ k, e = Error.NumError "ParseUint" part k := by
  unfold parseNumber at h
  split at h
  · left; injection h with h; exact h.symm
  · split at h
    · right; left; injection h with h; exact h.symm
    · split at h
      · rename_i n err hP
        right; right
        injection h with h
        subst h
        exact strconv.ParseUint_error part _ (by rw [hP])
      · cases h

theorem NewPRVersion_error {s : String} {e : Error} (h : NewPRVersion s = Except.error e) :
    isParseError e = true := by
  unfold NewPRVersion at h
  split at h
  · injection h with h; subst h; rfl
  · split at h
    · split at h
      · injection h with h; subst h; rfl
      · split at h
        · rename_i n err hP
          injection h with h
          subst h
          exact isParseError_of_ParseUint hP
        · cases h
    · split at h
      · cases h
      · injection h with h; subst h; rfl

theorem parsePrerelease_error {l : List String} {e : Error}
    (h : parsePrerelease l = Except.error e) : isParseError e = true := by
  induction l with
  | nil => cases h
  | cons a l ih =>
    rw [parsePrerelease] at h
    split at h
    · rename_i err hN
      injection h with h
      subst h
      exact NewPRVersion_error hN
    · split at h
      · rename_i err hP
        injection h with h
        subst h
        exact ih hP
      · cases h

theorem checkBuild_error {l : List String} {e : Error}
    (h : checkBuild l = some e) : isParseError e = true := by
  induction l with
  | nil => cases h
  | cons a l ih =>
    rw [checkBuild] at h
    split at h
    · injection h with h; subst h; rfl
    · split at h
      · injection h with h; subst h; rfl
      · exact ih h

theorem parseNumber_isParseError {invalid leading part : String} {e : Error}
    (h : parseNumber invalid leading part = Except.error e)
    (h1 : isParseError (Error.Errorf invalid part) = true)
    (h2 : isParseError (Error.Errorf leading part) = true) : isParseError e = true := by
  rcases parseNumber_error h with rfl | rfl | ⟨k, rfl⟩
  · exact h1
  · exact h2
  · rfl

theorem parseParts_error {p0 p1 p2 : String} {e : Error}
    (h : parseParts p0 p1 p2 = Except.error e) : isParseError e = true := by
  unfold parseParts at h
  split at h
  · rename_i err h0
    injection h with h
    subst h
    exact parseNumber_isParseError h0 rfl rfl
  · split at h
    · rename_i err h1
      injection h with h
      subst h
      exact parseNumber_isParseError h1 rfl rfl
    · simp only at h
      split at h
      · rename_i err h2
        injection h with h
        subst h
        exact parseNumber_isParseError h2 rfl rfl
      · split at h
        · rename_i err h3
          injection h with h
          subst h
          exact parsePrerelease_error h3
        · split at h
          · rename_i err h4
            injection h with h
            subst h
            exact checkBuild_error h4
          · cases h

/-- Every error of `semver.Make` has one of the shapes of `isParseError`. -/
theorem Make_error {s : String} {e : Error} (h : Make s = Except.error e) :
    isParseError e = true := by
  unfold Make Parse at h
  split at h
  · injection h with h; subst h; rfl
  · split at h
    · exact parseParts_error h
    · injection h with h; subst h; rfl

theorem Compare_maxCompat (v : Version) :
    v.Compare ⟨1, 0, 0, [], []⟩ =
      if v.Major = 0 then -1
      else if v.Major = 1 ∧ v.Minor = 0 ∧ v.Patch = 0 then (if v.Pre.length = 0 then 0 else -1)
      else 1 := by
  unfold Version.Compare
  simp only [List.length_nil]
  by_cases h0 : v.Major = 0
  · simp [h0]
  · by_cases h1 : v.Major = 1
    · by_cases h2 : v.Minor = 0
      · by_cases h3 : v.Patch = 0
        · by_cases h4 : v.Pre.length = 0
          · simp [h1, h2, h3, h4]
          · simp [h1, h2, h3, h4]
        · simp [h1, h2, h3]
      · simp [h1, h2]
    · have : v.Major > 1 := by omega
      simp [h1, this, h0]

theorem LE_maxCompat_iff (v : Version) :
    v.LE ⟨1, 0, 0, [], []⟩ = true ↔ v.Major = 0 ∨ (v.Major = 1 ∧ v.Minor = 0 ∧ v.Patch = 0) := by
  simp only [Version.LE, Compare_maxCompat, decide_eq_true_eq]
  by_cases h0 : v.Major = 0
  · simp [h0]
  · by_cases h1 : v.Major = 1 ∧ v.Minor = 0 ∧ v.Patch = 0
    · have h2 : (if v.Pre.length = 0 then (0 : Int) else -1) ≤ 0 := by split <;> decide
      simp only [h0, h1, if_false, and_self, if_true, or_true, iff_true]
      simpa using h2
    · simp only [h0, h1, if_false, or_self, iff_false]
      decide

theorem GT_maxCompat_iff (v : Version) :
    v.GT ⟨1, 0, 0, [], []⟩ = true ↔ ¬ (v.LE ⟨1, 0, 0, [], []⟩ = true) := by
  simp only [Version.LE, Version.GT, Compare_maxCompat, decide_eq_true_eq]
  split
  · decide
  · split
    · split <;> decide
    · decide

end semver

/-! ## `strconv.Atoi` against decimal syntax -/

namespace strconv

theorem len_eq_zero_iff (s : String) : len s = 0 ↔ s = "" := by
  cases s with
  | mk cs =>
    simp only [len, String.utf8ByteSize_mk, String.utf8Len_eq_zero]
    constructor
    · rintro rfl; rfl
    · intro h; exact congrArg String.data h

theorem data_eq_nil_iff (s : String) : s.data = [] ↔ s = "" := by
  cases s with
  | mk cs =>
    constructor
    · intro h; cases h; rfl
    · intro h; exact congrArg String.data h

theorem digit_le_nine {c : Char} (h : isDigit c = true) : c.toNat - '0'.toNat ≤ 9 := by
  simp only [isDigit, decide_eq_true_eq] at h
  have h0 : '0'.toNat = 48 := by decide
  have h9 : '9'.toNat = 57 := by decide
  omega

theorem digitsValue_cons (n : Nat) (c : Char) (cs : List Char) :
    digitsValue n (c :: cs) = digitsValue (n * 10 + (c.toNat - '0'.toNat)) cs := rfl

theorem le_digitsValue (n : Nat) (cs : List Char) : n ≤ digitsValue n cs := by
  induction cs generalizing n with
  | nil => exact Nat.le_refl _
  | cons c cs ih =>
    rw [digitsValue_cons]
    have := ih (n * 10 + (c.toNat - '0'.toNat))
    omega

theorem maxUint64_eq : maxUint64 = 18446744073709551615 := by decide

/-- The loop of `ParseUint` on a run of digits whose value fits 64 bits. -/
theorem ParseUintLoop_fits (s0 : String) (cs : List Char) (n : Nat)
    (hd : cs.all isDigit = true) (hv : digitsValue n cs ≤ maxUint64) :
    ParseUintLoop s0 cs n = (digitsValue n cs, none) := by
  induction cs generalizing n with
  | nil => rfl
  | cons c cs ih =>
    simp only [List.all_cons, Bool.and_eq_true] at hd
    rw [digitsValue_cons] at hv ⊢
    have h1 := le_digitsValue (n * 10 + (c.toNat - '0'.toNat)) cs
    have h9 := digit_le_nine hd.1
    rw [maxUint64_eq] at hv
    rw [ParseUintLoop]
    simp only [hd.1, if_true, maxUint64_eq]
    have hn : ¬ (n ≥ 18446744073709551615 / 10 + 1) := by omega
    rw [if_neg hn]
    have e1 : n * 10 % 2 ^ 64 = n * 10 := Nat.mod_eq_of_lt (by omega)
    have e2 : (n * 10 + (c.toNat - '0'.toNat)) % 2 ^ 64 = n * 10 + (c.toNat - '0'.toNat) :=
      Nat.mod_eq_of_lt (by omega)
    simp only [e1, e2]
    rw [if_neg (by omega)]
    exact ih _ hd.2 (by rw [maxUint64_eq]; exact hv)

/-- The loop of `ParseUint` on a run of digits whose value exceeds 64 bits. -/
theorem ParseUintLoop_overflow (s0 : String) (cs : List Char) (n : Nat)
    (hd : cs.all isDigit = true) (hn : n ≤ maxUint64) (hv : maxUint64 < digitsValue n cs) :
    ParseUintLoop s0 cs n = (maxUint64, some (rangeError "ParseUint" s0)) := by
  induction cs generalizing n with
  | nil => simp only [digitsValue, List.foldl_nil] at hv; omega
  | cons c cs ih =>
    simp only [List.all_cons, Bool.and_eq_true] at hd
    rw [digitsValue_cons] at hv
    have h9 := digit_le_nine hd.1
    rw [ParseUintLoop]
    simp only [hd.1, if_true]
    by_cases hc : n ≥ maxUint64 / 10 + 1
    · rw [if_pos hc]
    · rw [if_neg hc]
      rw [maxUint64_eq] at hc hn
      have e1 : n * 10 % 2 ^ 64 = n * 10 := Nat.mod_eq_of_lt (by omega)
      simp only [e1]
      by_cases ho : n * 10 + (c.toNat - '0'.toNat) ≤ 18446744073709551615
      · have e2 : (n * 10 + (c.toNat - '0'.toNat)) % 2 ^ 64 = n * 10 + (c.toNat - '0'.toNat) :=
          Nat.mod_eq_of_lt (by omega)
        simp only [e2]
        rw [if_neg (by rw [maxUint64_eq]; omega)]
        exact ih _ hd.2 (by rw [maxUint64_eq]; exact ho) hv
      · have e2 : (n * 10 + (c.toNat - '0'.toNat)) % 2 ^ 64 < n * 10 := by omega
        rw [if_pos (Or.inl e2)]

/-- The loop of `ParseUint` on text with a character that is no digit. -/
theorem ParseUintLoop_nondigit (s0 : String) (cs : List Char) (n : Nat)
    (hd : cs.all isDigit = false) :
    ParseUintLoop s0 cs n = (0, some (syntaxError "ParseUint" s0)) ∨
      ParseUintLoop s0 cs n = (maxUint64, some (rangeError "ParseUint" s0)) := by
  induction cs generalizing n with
  | nil => simp at hd
  | cons c cs ih =>
    rw [ParseUintLoop]
    by_cases hc : isDigit c = true
    · have hcs : cs.all isDigit = false := by
        simpa [List.all_cons, hc] using hd
      simp only [hc, if_true]
      split
      · exact Or.inr rfl
      · split
        · exact Or.inr rfl
        · exact ih _ hcs
    · simp only [hc]
      exact Or.inl rfl

end strconv

namespace strconv

theorem isDecimalLiteral_iff (d : String) :
    isDecimalLiteral d = true ↔ unsignedPart d ≠ [] ∧ (unsignedPart d).all isDigit = true := by
  simp [isDecimalLiteral]

/-- The three ways `ParseUint` can end, by the shape of its text. -/
theorem ParseUint_cases (t : String) :
    (t.data ≠ [] ∧ t.data.all isDigit = true ∧ digitsValue 0 t.data ≤ maxUint64 ∧
        ParseUint t = (digitsValue 0 t.data, none)) ∨
    (t.data ≠ [] ∧ t.data.all isDigit = true ∧ maxUint64 < digitsValue 0 t.data ∧
        ParseUint t = (maxUint64, some (rangeError "ParseUint" t))) ∨
    (¬ (t.data ≠ [] ∧ t.data.all isDigit = true) ∧
        (ParseUint t = (0, some (syntaxError "ParseUint" t)) ∨
          ParseUint t = (maxUint64, some (rangeError "ParseUint" t)))) := by
  unfold ParseUint
  by_cases h0 : t = ""
  · right; right
    have : t.data = [] := (data_eq_nil_iff t).mpr h0
    simp [h0, this]
  · have hne : t.data ≠ [] := fun h => h0 ((data_eq_nil_iff t).mp h)
    simp only [h0, if_false]
    by_cases hd : t.data.all isDigit = true
    · by_cases hv : digitsValue 0 t.data ≤ maxUint64
      · left
        exact ⟨hne, hd, hv, ParseUintLoop_fits t _ 0 hd hv⟩
      · right; left
        have hv2 : maxUint64 < digitsValue 0 t.data := by omega
        exact ⟨hne, hd, hv2, ParseUintLoop_overflow t _ 0 hd (Nat.zero_le _) hv2⟩
    · right; right
      have hd2 : t.data.all isDigit = false := by simpa using hd
      exact ⟨fun h => hd h.2, ParseUintLoop_nondigit t _ 0 hd2⟩

theorem ParseInt_ok_iff (s : String) :
    (ParseInt s).2 = none ↔ isDecimalLiteral s = true ∧ fitsInt s := by
  rw [isDecimalLiteral_iff]
  unfold ParseInt
  by_cases h0 : s = ""
  · subst h0
    simp [unsignedPart]
  · simp only [h0, if_false]
    have ht : (if s.data.head? = some '+' ∨ s.data.head? = some '-' then String.mk s.data.tail
        else s).data = unsignedPart s := by
      unfold unsignedPart
      split <;> rfl
    generalize (if s.data.head? = some '+' ∨ s.data.head? = some '-' then String.mk s.data.tail
        else s) = t at ht
    unfold fitsInt decimalValue
    rw [← ht]
    have hmax := maxUint64_eq
    have h63 : (2 : Nat) ^ (64 - 1) = 9223372036854775808 := by norm_num
    rcases ParseUint_cases t with ⟨h1, h2, h3, h4⟩ | ⟨h1, h2, h3, h4⟩ | ⟨h1, h4 | h4⟩
    · rw [h4]
      simp only [IntSize, h63, h1, h2, ne_eq, not_false_eq_true, true_and]
      by_cases hneg : s.data.head? = some '-'
      · simp only [hneg, not_true_eq_false, false_and, if_false, true_and, if_true]
        split
        · refine ⟨fun h => by simp at h, fun h => ?_⟩
          exfalso
          push_cast at h
          omega
        · refine ⟨fun _ => ?_, fun _ => rfl⟩
          push_cast
          omega
      · simp only [hneg, not_false_eq_true, true_and, false_and, if_false]
        split
        · refine ⟨fun h => by simp at h, fun h => ?_⟩
          exfalso
          push_cast at h
          omega
        · refine ⟨fun _ => ?_, fun _ => rfl⟩
          push_cast
          omega
    · rw [h4]
      simp only [rangeError, IntSize, h63, h1, h2, ne_eq, not_false_eq_true, true_and]
      by_cases hneg : s.data.head? = some '-'
      · simp only [hneg, not_true_eq_false, false_and, if_false, true_and, if_true]
        rw [if_pos (by rw [hmax]; norm_num)]
        refine ⟨fun h => by simp at h, fun h => ?_⟩
        exfalso
        push_cast at h
        omega
      · simp only [hneg, not_false_eq_true, true_and, false_and, if_false]
        rw [if_pos (by rw [hmax]; norm_num)]
        refine ⟨fun h => by simp at h, fun h => ?_⟩
        exfalso
        push_cast at h
        omega
    · rw [h4]
      constructor
      · intro h; simp [syntaxError] at h
      · intro h; exact absurd h.1 h1
    · rw [h4]
      simp only [rangeError, IntSize, h63]
      by_cases hneg : s.data.head? = some '-'
      · simp only [hneg, not_true_eq_false, false_and, if_false, true_and, if_true]
        rw [if_pos (by rw [hmax]; norm_num)]
        exact ⟨fun h => by simp at h, fun h => absurd h.1 h1⟩
      · simp only [hneg, not_false_eq_true, true_and, false_and, if_false]
        rw [if_pos (by rw [hmax]; norm_num)]
        exact ⟨fun h => by simp at h, fun h => absurd h.1 h1⟩

end strconv

namespace strconv

theorem ParseInt_error (s : String) (e : Error) (h : (ParseInt s).2 = some e) :
    ∃ k, e = Error.NumError "ParseInt" s k := by
  unfold ParseInt at h
  split at h
  · exact ⟨_, by simpa [syntaxError] using h.symm⟩
  · simp only at h
    split at h
    · exact ⟨_, by simpa [syntaxError] using h.symm⟩
    · split at h
      · exact ⟨_, by simpa [rangeError] using h.symm⟩
      · split at h
        · exact ⟨_, by simpa [rangeError] using h.symm⟩
        · simp at h

theorem AtoiLoop_ok_iff (s0 : String) (cs : List Char) (n : Int) :
    (AtoiLoop s0 cs n).2 = none ↔ cs.all isDigit = true := by
  induction cs generalizing n with
  | nil => simp [AtoiLoop]
  | cons c cs ih =>
    rw [AtoiLoop]
    by_cases hc : isDigit c = true
    · simp only [hc, if_true, List.all_cons, Bool.true_and]
      exact ih _
    · simp [hc]

theorem AtoiLoop_error (s0 : String) (cs : List Char) (n : Int) (e : Error)
    (h : (AtoiLoop s0 cs n).2 = some e) : e = Error.NumError "Atoi" s0 NumErrKind.ErrSyntax := by
  induction cs generalizing n with
  | nil => simp [AtoiLoop] at h
  | cons c cs ih =>
    rw [AtoiLoop] at h
    split at h
    · exact ih _ h
    · simpa [syntaxError] using h.symm

/-- Every error of `Atoi` is a `*NumError` of `Atoi` that quotes its input. -/
theorem Atoi_error (s : String) (e : Error) (h : (Atoi s).2 = some e) :
    ∃ k, e = Error.NumError "Atoi" s k := by
  unfold Atoi at h
  by_cases hl : 0 < len s ∧ len s < 19
  · simp only [hl, and_self, if_true] at h
    by_cases hs : s.data.head? = some '-' ∨ s.data.head? = some '+'
    · simp only [hs, if_true, true_and] at h
      by_cases ht : s.data.tail.length < 1
      · simp only [ht, if_true] at h
        exact ⟨_, by simpa using h.symm⟩
      · simp only [ht, if_false] at h
        cases hL : AtoiLoop s s.data.tail 0 with
        | mk n err =>
          rw [hL] at h
          cases err with
          | none => simp at h
          | some e2 =>
            have := AtoiLoop_error _ _ _ e2 (by rw [hL])
            subst this
            exact ⟨_, by simpa using h.symm⟩
    · simp only [hs, if_false, false_and] at h
      cases hL : AtoiLoop s s.data 0 with
      | mk n err =>
        rw [hL] at h
        cases err with
        | none => simp at h
        | some e2 =>
          have := AtoiLoop_error _ _ _ e2 (by rw [hL])
          subst this
          exact ⟨_, by simpa using h.symm⟩
  · simp only [hl, if_false] at h
    cases hP : ParseInt s with
    | mk i64 err =>
      rw [hP] at h
      cases err with
      | none => simp at h
      | some e2 =>
        obtain ⟨k, rfl⟩ := ParseInt_error s e2 (by rw [hP])
        exact ⟨k, by simpa using h.symm⟩

/-- `Atoi` accepts exactly the decimal literals that are short enough for its
fast path or whose value fits the native signed integer. -/
theorem Atoi_ok_iff (s : String) :
    (Atoi s).2 = none ↔ isDecimalLiteral s = true ∧ (len s < 19 ∨ fitsInt s) := by
  unfold Atoi
  by_cases hl : 0 < len s ∧ len s < 19
  · simp only [hl, and_self, if_true, true_or, and_true]
    rw [isDecimalLiteral_iff]
    have hne : s.data ≠ [] := by
      intro h
      have := (len_eq_zero_iff s).mpr ((data_eq_nil_iff s).mp h)
      omega
    have hu : unsignedPart s =
        if s.data.head? = some '-' ∨ s.data.head? = some '+' then s.data.tail else s.data := by
      unfold unsignedPart
      by_cases h1 : s.data.head? = some '+' <;> by_cases h2 : s.data.head? = some '-' <;>
        simp [h1, h2]
    rw [hu]
    by_cases hs : s.data.head? = some '-' ∨ s.data.head? = some '+'
    · simp only [hs, if_true, true_and]
      by_cases ht : s.data.tail.length < 1
      · have : s.data.tail = [] := by
          cases hh : s.data.tail with
          | nil => rfl
          | cons a l => rw [hh] at ht; simp at ht
        simp [ht, this]
      · have hne2 : s.data.tail ≠ [] := by
          intro h; rw [h] at ht; simp at ht
        simp only [ht, if_false, hne2, ne_eq, not_false_eq_true, true_and]
        rw [← AtoiLoop_ok_iff s s.data.tail 0]
        cases hL : AtoiLoop s s.data.tail 0 with
        | mk n err => cases err <;> simp
    · simp only [hs, if_false, false_and, hne, ne_eq, not_false_eq_true, true_and]
      rw [← AtoiLoop_ok_iff s s.data 0]
      cases hL : AtoiLoop s s.data 0 with
      | mk n err => cases err <;> simp
  · simp only [hl, if_false]
    have h1 : (match ParseInt s with
        | (i64, some (Error.NumError _ num k)) => (i64, some (Error.NumError "Atoi" num k))
        | (i64, err) => (i64, err)).2 = none ↔ (ParseInt s).2 = none := by
      cases hP : ParseInt s with
      | mk i64 err =>
        cases err with
        | none => simp
        | some e =>
          obtain ⟨k, rfl⟩ := ParseInt_error s e (by rw [hP])
          simp
    rw [h1, ParseInt_ok_iff]
    constructor
    · exact fun h => ⟨h.1, Or.inr h.2⟩
    · rintro ⟨h2, h3 | h3⟩
      · have h0 : len s = 0 := by omega
        have := (len_eq_zero_iff s).mp h0
        subst this
        exact absurd h2 (by decide)
      · exact ⟨h2, h3⟩

end strconv

/-! ## Short decimal literals fit the native integer -/

namespace strconv

theorem length_le_utf8Len (cs : List Char) : cs.length ≤ String.utf8Len cs := by
  induction cs with
  | nil => simp
  | cons c cs ih =>
    have := Char.utf8Size_pos c
    simp only [List.length_cons, String.utf8Len_cons]
    omega

theorem length_le_len (s : String) : s.data.length ≤ len s := by
  cases s with
  | mk cs => exact length_le_utf8Len cs

theorem digitsValue_bound (n : Nat) (ds : List Char) (h : ds.all isDigit = true) :
    digitsValue n ds + 1 ≤ (n + 1) * 10 ^ ds.length := by
  induction ds generalizing n with
  | nil => simp [digitsValue]
  | cons c cs ih =>
    simp only [List.all_cons, Bool.and_eq_true] at h
    have h9 := digit_le_nine h.1
    rw [digitsValue_cons, List.length_cons, Nat.pow_succ]
    have h1 := ih (n * 10 + (c.toNat - '0'.toNat)) h.2
    have h2 : (n * 10 + (c.toNat - '0'.toNat) + 1) * 10 ^ cs.length ≤
        ((n + 1) * 10) * 10 ^ cs.length := Nat.mul_le_mul_right _ (by omega)
    calc digitsValue (n * 10 + (c.toNat - '0'.toNat)) cs + 1
        ≤ (n * 10 + (c.toNat - '0'.toNat) + 1) * 10 ^ cs.length := h1
      _ ≤ ((n + 1) * 10) * 10 ^ cs.length := h2
      _ = (n + 1) * (10 ^ cs.length * 10) := by ring

theorem unsignedPart_length_le (d : String) : (unsignedPart d).length ≤ d.data.length := by
  unfold unsignedPart
  split
  · simp
  · exact Nat.le_refl _

/-- A decimal literal of at most 18 bytes has a value below `10^18`, inside the
range of the native integer. -/
theorem fitsInt_of_short (d : String) (hlit : isDecimalLiteral d = true) (hl : len d < 19) :
    fitsInt d := by
  obtain ⟨_, hd⟩ := (isDecimalLiteral_iff d).mp hlit
  have hlen : (unsignedPart d).length ≤ 18 := by
    have h1 := unsignedPart_length_le d
    have h2 := length_le_len d
    omega
  have hb := digitsValue_bound 0 (unsignedPart d) hd
  have hp : 10 ^ (unsignedPart d).length ≤ 10 ^ 18 :=
    Nat.pow_le_pow_right (by decide) hlen
  have hv : digitsValue 0 (unsignedPart d) < 1000000000000000000 := by
    have h18 : (10 : Nat) ^ 18 = 1000000000000000000 := by norm_num
    omega
  unfold fitsInt decimalValue
  split
  · constructor
    · push_cast; omega
    · push_cast; omega
  · constructor
    · push_cast; omega
    · push_cast; omega

/-- On decimal literals `Atoi` succeeds exactly inside the native range. -/
theorem Atoi_ok_iff_fitsInt (d : String) (hlit : isDecimalLiteral d = true) :
    (Atoi d).2 = none ↔ fitsInt d := by
  rw [Atoi_ok_iff]
  constructor
  · rintro ⟨_, h | h⟩
    · exact fitsInt_of_short d hlit h
    · exact h
  · intro h
    exact ⟨hlit, Or.inr h⟩

end strconv

/-! ## `semver.Parse` on versions with pre-release and build tags -/

namespace strings

theorem cut_of_not_mem (sep : Char) (a : List Char) (h : sep ∉ a) : cut sep a = none := by
  induction a with
  | nil => rfl
  | cons c cs ih =>
    simp only [List.mem_cons, not_or] at h
    rw [cut, if_neg (fun hc => h.1 hc.symm), ih h.2]

theorem cut_append (sep : Char) (a r : List Char) (h : sep ∉ a) :
    cut sep (a ++ sep :: r) = some (a, r) := by
  induction a with
  | nil => simp [cut]
  | cons c cs ih =>
    simp only [List.mem_cons, not_or] at h
    rw [List.cons_append, cut, if_neg (fun hc => h.1 hc.symm), ih h.2]

end strings

namespace semver

/-- The characters of `joinDots`, on lists of characters. -/
theorem joinDots_data_cons (a b : String) (rest : List String) :
    (joinDots (a :: b :: rest)).data = a.data ++ '.' :: (joinDots (b :: rest)).data := by
  rw [joinDots, String.data_append, String.data_append]
  simp

theorem isIdentChar_ne_dot {c : Char} (h : isIdentChar c = true) : c ≠ '.' ∧ c ≠ '+' := by
  constructor <;> rintro rfl <;> exact absurd h (by decide)

theorem isBuildIdent_no_sep {s : String} (h : isBuildIdent s = true) :
    '.' ∉ s.data ∧ '+' ∉ s.data := by
  simp only [isBuildIdent, Bool.and_eq_true, decide_eq_true_eq, List.all_eq_true] at h
  constructor
  · intro hm; exact (isIdentChar_ne_dot (h.2 _ hm)).1 rfl
  · intro hm; exact (isIdentChar_ne_dot (h.2 _ hm)).2 rfl

theorem joinDots_no_plus (ids : List String) (h : ∀ s ∈ ids, isBuildIdent s = true) :
    '+' ∉ (joinDots ids).data := by
  induction ids with
  | nil => simp [joinDots]
  | cons a rest ih =>
    cases rest with
    | nil => exact (isBuildIdent_no_sep (h a (List.mem_cons_self _ _))).2
    | cons b rest =>
      rw [joinDots_data_cons]
      simp only [List.mem_append, List.mem_cons, not_or]
      refine ⟨(isBuildIdent_no_sep (h a (List.mem_cons_self _ _))).2, by decide, ?_⟩
      exact ih fun s hs => h s (List.mem_cons_of_mem _ hs)

theorem genSplitLoop_joinDots (ids : List String) (hne : ids ≠ [])
    (h : ∀ s ∈ ids, isBuildIdent s = true) (n : Nat) (hn : ids.length ≤ n + 1) :
    (strings.genSplitLoop '.' n (joinDots ids).data).map String.mk = ids := by
  induction ids generalizing n with
  | nil => exact absurd rfl hne
  | cons a rest ih =>
    have ha := (isBuildIdent_no_sep (h a (List.mem_cons_self _ _))).1
    cases rest with
    | nil =>
      simp only [joinDots]
      cases n with
      | zero => rfl
      | succ n => rw [strings.genSplitLoop, strings.cut_of_not_mem _ _ ha]; rfl
    | cons b rest =>
      rw [joinDots_data_cons]
      cases n with
      | zero => simp at hn
      | succ n =>
        rw [strings.genSplitLoop, strings.cut_append _ _ _ ha]
        simp only [List.map_cons]
        rw [ih (by simp) (fun s hs => h s (List.mem_cons_of_mem _ hs)) n
          (by simp only [List.length_cons] at hn ⊢; omega)]

theorem length_le_count_joinDots (ids : List String) :
    ids.length ≤ strings.Count '.' (joinDots ids).data + 1 := by
  induction ids with
  | nil => simp
  | cons a rest ih =>
    cases rest with
    | nil => simp
    | cons b rest =>
      rw [joinDots_data_cons]
      simp only [strings.Count, List.count_append, List.count_cons_self, List.length_cons] at ih ⊢
      omega

/-- Splitting a dotted tag at the dots gives back its identifiers. -/
theorem Split_joinDots (ids : List String) (hne : ids ≠ [])
    (h : ∀ s ∈ ids, isBuildIdent s = true) (t : String) (ht : t.data = (joinDots ids).data) :
    strings.Split t '.' = ids := by
  unfold strings.Split
  rw [ht]
  exact genSplitLoop_joinDots ids hne h _ (length_le_count_joinDots ids)

end semver

namespace semver

theorem mem_numbers_of_isDigit {c : Char} (h : strconv.isDigit c = true) : c ∈ numbers.data := by
  simp only [strconv.isDigit, decide_eq_true_eq] at h
  have h0 : '0'.toNat = 48 := rfl
  have h9 : '9'.toNat = 57 := rfl
  rw [h0, h9] at h
  have hc : c = Char.ofNat c.toNat := (Char.ofNat_toNat c).symm
  generalize c.toNat = n at hc h
  obtain ⟨h1, h2⟩ := h
  subst hc
  interval_cases n <;> decide

theorem contains_numbers (c : Char) : numbers.data.contains c = strconv.isDigit c := by
  cases hd : strconv.isDigit c with
  | true => simpa using mem_numbers_of_isDigit hd
  | false =>
    cases hm : numbers.data.contains c with
    | false => rfl
    | true =>
      have hmem : c ∈ numbers.data := by simpa using hm
      have hall : numbers.data.all strconv.isDigit = true := by decide
      rw [List.all_eq_true] at hall
      rw [hall c hmem] at hd
      cases hd

theorem containsOnly_numbers (s : String) :
    containsOnly s numbers = s.data.all strconv.isDigit := by
  unfold containsOnly
  congr 1
  funext c
  exact contains_numbers c

theorem mem_alphanum_of_isIdentChar {c : Char} (h : isIdentChar c = true) :
    c ∈ alphanum.data := by
  simp only [isIdentChar, decide_eq_true_eq] at h
  have ha : 'a'.toNat = 97 := rfl
  have hz : 'z'.toNat = 122 := rfl
  have hA : 'A'.toNat = 65 := rfl
  have hZ : 'Z'.toNat = 90 := rfl
  have h0 : '0'.toNat = 48 := rfl
  have h9 : '9'.toNat = 57 := rfl
  rw [ha, hz, hA, hZ, h0, h9] at h
  have hc : c = Char.ofNat c.toNat := (Char.ofNat_toNat c).symm
  rcases h with h | h | h | h
  · generalize c.toNat = n at hc h
    obtain ⟨h1, h2⟩ := h
    subst hc
    interval_cases n <;> decide
  · generalize c.toNat = n at hc h
    obtain ⟨h1, h2⟩ := h
    subst hc
    interval_cases n <;> decide
  · generalize c.toNat = n at hc h
    obtain ⟨h1, h2⟩ := h
    subst hc
    interval_cases n <;> decide
  · subst h
    decide

theorem contains_alphanum (c : Char) : alphanum.data.contains c = isIdentChar c := by
  cases hd : isIdentChar c with
  | true => simpa using mem_alphanum_of_isIdentChar hd
  | false =>
    cases hm : alphanum.data.contains c with
    | false => rfl
    | true =>
      have hmem : c ∈ alphanum.data := by simpa using hm
      have hall : alphanum.data.all isIdentChar = true := by decide
      rw [List.all_eq_true] at hall
      rw [hall c hmem] at hd
      cases hd

theorem containsOnly_alphanum (s : String) :
    containsOnly s alphanum = s.data.all isIdentChar := by
  unfold containsOnly
  congr 1
  funext c
  exact contains_alphanum c

theorem utf8Size_of_isDigit {c : Char} (h : strconv.isDigit c = true) : c.utf8Size = 1 := by
  have hall : numbers.data.all (fun x => decide (x.utf8Size = 1)) = true := by decide
  rw [List.all_eq_true] at hall
  simpa using hall c (mem_numbers_of_isDigit h)

end semver

namespace semver

theorem len_ne_zero_of_data {s : String} (h : s.data ≠ []) : strconv.len s ≠ 0 := by
  intro h0
  exact h ((strconv.data_eq_nil_iff s).mpr ((strconv.len_eq_zero_iff s).mp h0))

theorem NewPRVersion_ok (s : String) (hv : isPrereleaseIdent s = true)
    (hf : numericFits s = true) : ∃ pr, NewPRVersion s = Except.ok pr := by
  simp only [isPrereleaseIdent, isBuildIdent, Bool.and_eq_true, decide_eq_true_eq,
    Bool.or_eq_true, Bool.not_eq_true'] at hv
  obtain ⟨⟨hne, hid⟩, hz⟩ := hv
  unfold NewPRVersion
  rw [if_neg (len_ne_zero_of_data hne), containsOnly_numbers, containsOnly_alphanum]
  by_cases hd : s.data.all strconv.isDigit = true
  · rw [if_pos hd]
    have hlead : hasLeadingZeroes s = false := by
      rcases hz with hz | hz
      · rw [hd] at hz; cases hz
      · rcases hz with hz | hz
        · cases hs : s.data with
          | nil => exact absurd hs hne
          | cons c cs =>
            rw [hs] at hz hd
            have hcs : cs = [] := by
              cases cs with
              | nil => rfl
              | cons _ _ => simp at hz
            subst hcs
            simp only [List.all_cons, List.all_nil, Bool.and_true] at hd
            have h1 := utf8Size_of_isDigit hd
            have hl : strconv.len s = 1 := by
              cases s with
              | mk data =>
                simp only at hs
                subst hs
                simp [strconv.len, h1]
            simp [hasLeadingZeroes, hl]
        · simp [hasLeadingZeroes, hz]
    rw [hlead]
    simp only [Bool.false_eq_true, if_false]
    have hfit : strconv.digitsValue 0 s.data ≤ strconv.maxUint64 := by
      simp only [numericFits, Bool.or_eq_true, Bool.not_eq_true', decide_eq_true_eq] at hf
      rcases hf with hf | hf
      · rw [hd] at hf; cases hf
      · exact hf
    rcases strconv.ParseUint_cases s with ⟨_, _, _, h4⟩ | ⟨_, _, h3, _⟩ | ⟨h1, _⟩
    · rw [h4]; exact ⟨_, rfl⟩
    · omega
    · exact absurd ⟨hne, hd⟩ h1
  · rw [if_neg hd, if_pos hid]
    exact ⟨_, rfl⟩

theorem parsePrerelease_ok (ids : List String)
    (h : ∀ s ∈ ids, isPrereleaseIdent s = true ∧ numericFits s = true) :
    ∃ pre, parsePrerelease ids = Except.ok pre ∧ pre.length = ids.length := by
  induction ids with
  | nil => exact ⟨[], rfl, rfl⟩
  | cons a rest ih =>
    obtain ⟨pr, hpr⟩ := NewPRVersion_ok a (h a (List.mem_cons_self _ _)).1
      (h a (List.mem_cons_self _ _)).2
    obtain ⟨pre, hpre, hlen⟩ := ih fun s hs => h s (List.mem_cons_of_mem _ hs)
    refine ⟨pr :: pre, ?_, by simp [hlen]⟩
    rw [parsePrerelease, hpr]
    simp only [hpre]

theorem checkBuild_ok (bids : List String) (h : ∀ s ∈ bids, isBuildIdent s = true) :
    checkBuild bids = none := by
  induction bids with
  | nil => rfl
  | cons a rest ih =>
    have ha := h a (List.mem_cons_self _ _)
    simp only [isBuildIdent, Bool.and_eq_true, decide_eq_true_eq] at ha
    rw [checkBuild, if_neg (len_ne_zero_of_data ha.1), containsOnly_alphanum, ha.2]
    simp only [not_true_eq_false, if_false]
    exact ih fun s hs => h s (List.mem_cons_of_mem _ hs)

theorem isBuildIdent_of_isPrereleaseIdent {s : String} (h : isPrereleaseIdent s = true) :
    isBuildIdent s = true := by
  simp only [isPrereleaseIdent, Bool.and_eq_true] at h
  exact h.1

/-- The split of `Parse` on a version whose major and minor numbers are one
character each. -/
theorem Parse_of_data (v : String) (a b : Char) (rest : List Char)
    (hv : v.data = a :: '.' :: b :: '.' :: rest) (ha : a ≠ '.') (hb : b ≠ '.') :
    Parse v = parseParts ⟨[a]⟩ ⟨[b]⟩ ⟨rest⟩ := by
  unfold Parse
  rw [if_neg (len_ne_zero_of_data (by rw [hv]; simp))]
  have hs : strings.SplitN v '.' 3 = [⟨[a]⟩, ⟨[b]⟩, ⟨rest⟩] := by
    simp [strings.SplitN, strings.genSplitLoop, strings.cut, hv, ha, hb]
  rw [hs]

/-- The tail of `Parse` when the third part is one patch character, a hyphen
and a pre-release tag. -/
theorem parseParts_prerelease (p0 p1 p2 : String) (major minor patch : Nat) (c : Char)
    (ids : List String)
    (h0 : parseNumber "Invalid character(s) found in major number %q"
      "Major number must not contain leading zeroes %q" p0 = Except.ok major)
    (h1 : parseNumber "Invalid character(s) found in minor number %q"
      "Minor number must not contain leading zeroes %q" p1 = Except.ok minor)
    (h2 : parseNumber "Invalid character(s) found in patch number %q"
      "Patch number must not contain leading zeroes %q" ⟨[c]⟩ = Except.ok patch)
    (hc1 : c ≠ '+') (hc2 : c ≠ '-')
    (hp2 : p2.data = c :: '-' :: (joinDots ids).data) (hne : ids ≠ [])
    (h : ∀ s ∈ ids, isPrereleaseIdent s = true ∧ numericFits s = true) :
    ∃ pre, pre.length = ids.length ∧
      parseParts p0 p1 p2 = Except.ok ⟨major, minor, patch, pre, []⟩ := by
  have hb : ∀ s ∈ ids, isBuildIdent s = true :=
    fun s hs => isBuildIdent_of_isPrereleaseIdent (h s hs).1
  obtain ⟨pre, hpre, hlen⟩ := parsePrerelease_ok ids h
  refine ⟨pre, hlen, ?_⟩
  have hplus : strings.cut '+' p2.data = none := by
    apply strings.cut_of_not_mem
    rw [hp2]
    simp only [List.mem_cons, not_or]
    exact ⟨fun e => hc1 e.symm, by decide, joinDots_no_plus ids hb⟩
  have hminus : strings.cut '-' p2.data = some ([c], (joinDots ids).data) := by
    rw [hp2]
    exact strings.cut_append '-' [c] _ (by simpa using fun e => hc2 e.symm)
  have hsplit : strings.Split ⟨(joinDots ids).data⟩ '.' = ids :=
    Split_joinDots ids hne hb _ rfl
  unfold parseParts
  simp only [h0, h1, hplus, hminus, hsplit, h2, hpre, checkBuild]

/-- The tail of `Parse` when the third part is one patch character, a plus sign
and a build tag. -/
theorem parseParts_build (p0 p1 p2 : String) (major minor patch : Nat) (c : Char)
    (bids : List String)
    (h0 : parseNumber "Invalid character(s) found in major number %q"
      "Major number must not contain leading zeroes %q" p0 = Except.ok major)
    (h1 : parseNumber "Invalid character(s) found in minor number %q"
      "Minor number must not contain leading zeroes %q" p1 = Except.ok minor)
    (h2 : parseNumber "Invalid character(s) found in patch number %q"
      "Patch number must not contain leading zeroes %q" ⟨[c]⟩ = Except.ok patch)
    (hc1 : c ≠ '+') (hc2 : c ≠ '-')
    (hp2 : p2.data = c :: '+' :: (joinDots bids).data) (hne : bids ≠ [])
    (h : ∀ s ∈ bids, isBuildIdent s = true) :
    parseParts p0 p1 p2 = Except.ok ⟨major, minor, patch, [], bids⟩ := by
  have hplus : strings.cut '+' p2.data = some ([c], (joinDots bids).data) := by
    rw [hp2]
    exact strings.cut_append '+' [c] _ (by simpa using fun e => hc1 e.symm)
  have hminus : strings.cut '-' [c] = none :=
    strings.cut_of_not_mem _ _ (by simpa using fun e => hc2 e.symm)
  have hsplit : strings.Split ⟨(joinDots bids).data⟩ '.' = bids :=
    Split_joinDots bids hne h _ rfl
  unfold parseParts
  simp only [h0, h1, hplus, hminus, hsplit, h2, parsePrerelease, checkBuild_ok bids h]

end semver

namespace semver

theorem hasLeadingZeroes_of_ident (s : String) (hv : isPrereleaseIdent s = true)
    (hd : s.data.all strconv.isDigit = true) : hasLeadingZeroes s = false := by
  simp only [isPrereleaseIdent, isBuildIdent, Bool.and_eq_true, decide_eq_true_eq,
    Bool.or_eq_true, Bool.not_eq_true'] at hv
  obtain ⟨⟨hne, _⟩, hz⟩ := hv
  rcases hz with hz | hz
  · rw [hd] at hz; cases hz
  · rcases hz with hz | hz
    · cases hs : s.data with
      | nil => exact absurd hs hne
      | cons c cs =>
        rw [hs] at hz hd
        have hcs : cs = [] := by
          cases cs with
          | nil => rfl
          | cons _ _ => simp at hz
        subst hcs
        simp only [List.all_cons, List.all_nil, Bool.and_true] at hd
        have h1 := utf8Size_of_isDigit hd
        have hl : strconv.len s = 1 := by
          cases s with
          | mk data =>
            simp only at hs
            subst hs
            simp [strconv.len, h1]
        simp [hasLeadingZeroes, hl]
    · simp [hasLeadingZeroes, hz]

/-- A numeric pre-release identifier above `2^64 - 1` gets the range error of
`strconv.ParseUint`. -/
theorem NewPRVersion_overflow (s : String) (hv : isPrereleaseIdent s = true)
    (hf : numericFits s = false) :
    NewPRVersion s =
      Except.error (Error.NumError "ParseUint" s strconv.NumErrKind.ErrRange) := by
  have hne : s.data ≠ [] := by
    simp only [isPrereleaseIdent, isBuildIdent, Bool.and_eq_true, decide_eq_true_eq] at hv
    exact hv.1.1
  simp only [numericFits, Bool.or_eq_false_iff, Bool.not_eq_false', decide_eq_false_iff_not]
    at hf
  obtain ⟨hd, hbig⟩ := hf
  unfold NewPRVersion
  rw [if_neg (len_ne_zero_of_data hne), containsOnly_numbers, if_pos hd,
    hasLeadingZeroes_of_ident s hv hd]
  simp only [Bool.false_eq_true, if_false]
  rcases strconv.ParseUint_cases s with ⟨_, _, h3, _⟩ | ⟨_, _, _, h4⟩ | ⟨h1, _⟩
  · exact absurd h3 hbig
  · rw [h4]; rfl
  · exact absurd ⟨hne, hd⟩ h1

theorem parsePrerelease_overflow (pre post : List String) (s : String)
    (hpre : ∀ x ∈ pre, isPrereleaseIdent x = true ∧ numericFits x = true)
    (hv : isPrereleaseIdent s = true) (hf : numericFits s = false) :
    parsePrerelease (pre ++ s :: post) =
      Except.error (Error.NumError "ParseUint" s strconv.NumErrKind.ErrRange) := by
  induction pre with
  | nil => simp only [List.nil_append, parsePrerelease, NewPRVersion_overflow s hv hf]
  | cons a pre ih =>
    obtain ⟨pr, hpr⟩ := NewPRVersion_ok a (hpre a (List.mem_cons_self _ _)).1
      (hpre a (List.mem_cons_self _ _)).2
    rw [List.cons_append, parsePrerelease, hpr]
    simp only [ih fun x hx => hpre x (List.mem_cons_of_mem _ hx)]

/-- The tail of `Parse` when the third part is one patch character, a hyphen
and a tag of pre-release identifiers: the verdict of the pre-release loop. -/
theorem parseParts_prerelease_eq (p0 p1 p2 : String) (major minor patch : Nat) (c : Char)
    (ids : List String)
    (h0 : parseNumber "Invalid character(s) found in major number %q"
      "Major number must not contain leading zeroes %q" p0 = Except.ok major)
    (h1 : parseNumber "Invalid character(s) found in minor number %q"
      "Minor number must not contain leading zeroes %q" p1 = Except.ok minor)
    (h2 : parseNumber "Invalid character(s) found in patch number %q"
      "Patch number must not contain leading zeroes %q" ⟨[c]⟩ = Except.ok patch)
    (hc1 : c ≠ '+') (hc2 : c ≠ '-')
    (hp2 : p2.data = c :: '-' :: (joinDots ids).data) (hne : ids ≠ [])
    (h : ∀ s ∈ ids, isPrereleaseIdent s = true) :
    parseParts p0 p1 p2 =
      match parsePrerelease ids with
      | Except.error err => Except.error err
      | Except.ok pre => Except.ok ⟨major, minor, patch, pre, []⟩ := by
  have hb : ∀ s ∈ ids, isBuildIdent s = true :=
    fun s hs => isBuildIdent_of_isPrereleaseIdent (h s hs)
  have hplus : strings.cut '+' p2.data = none := by
    apply strings.cut_of_not_mem
    rw [hp2]
    simp only [List.mem_cons, not_or]
    exact ⟨fun e => hc1 e.symm, by decide, joinDots_no_plus ids hb⟩
  have hminus : strings.cut '-' p2.data = some ([c], (joinDots ids).data) := by
    rw [hp2]
    exact strings.cut_append '-' [c] _ (by simpa using fun e => hc2 e.symm)
  have hsplit : strings.Split ⟨(joinDots ids).data⟩ '.' = ids :=
    Split_joinDots ids hne hb _ rfl
  unfold parseParts
  simp only [h0, h1, hplus, hminus, hsplit, h2]
  cases parsePrerelease ids with
  | error err => rfl
  | ok pre => simp only [checkBuild]

end semver

/-! ## What `semver.Parse` accepts conforms to the grammar -/

namespace strings

theorem cut_some (sep : Char) (s a b : List Char) (h : cut sep s = some (a, b)) :
    s = a ++ sep :: b := by
  induction s generalizing a with
  | nil => simp [cut] at h
  | cons c cs ih =>
    rw [cut] at h
    split at h
    · rename_i hc
      cases h
      rw [hc]; rfl
    · cases hcut : cut sep cs with
      | none => simp [hcut] at h
      | some ab =>
        obtain ⟨a2, b2⟩ := ab
        simp only [hcut, Option.some.injEq, Prod.mk.injEq] at h
        obtain ⟨rfl, rfl⟩ := h
        rw [ih a2 hcut]; rfl

theorem genSplitLoop_ne_nil (sep : Char) (n : Nat) (s : List Char) :
    genSplitLoop sep n s ≠ [] := by
  cases n with
  | zero => simp [genSplitLoop]
  | succ n =>
    rw [genSplitLoop]
    split <;> simp

end strings

namespace semver

/-- Joining the pieces of a split at dots gives the text back. -/
theorem joinDots_genSplitLoop (n : Nat) (s : List Char) :
    (joinDots ((strings.genSplitLoop '.' n s).map String.mk)).data = s := by
  induction n generalizing s with
  | zero => rfl
  | succ n ih =>
    rw [strings.genSplitLoop]
    cases hcut : strings.cut '.' s with
    | none => rfl
    | some ab =>
      obtain ⟨a, b⟩ := ab
      simp only [List.map_cons]
      have hb := ih b
      cases hl : strings.genSplitLoop '.' n b with
      | nil => exact absurd hl (strings.genSplitLoop_ne_nil _ _ _)
      | cons x rest =>
        rw [hl] at hb
        simp only [List.map_cons] at hb ⊢
        rw [joinDots_data_cons, hb, strings.cut_some _ _ _ _ hcut]

theorem tagData_Split (sep : Char) (b : List Char) :
    tagData sep (strings.Split ⟨b⟩ '.') = sep :: b := by
  unfold strings.Split
  have hj := joinDots_genSplitLoop (strings.Count '.' b) b
  cases hl : (strings.genSplitLoop '.' (strings.Count '.' b) b).map String.mk with
  | nil =>
    have := strings.genSplitLoop_ne_nil '.' (strings.Count '.' b) b
    simp at hl
    exact absurd hl this
  | cons x rest =>
    rw [hl] at hj
    simp only [tagData, hj]

theorem SplitN_three (v p0 p1 p2 : String) (h : strings.SplitN v '.' 3 = [p0, p1, p2]) :
    v.data = p0.data ++ '.' :: p1.data ++ '.' :: p2.data := by
  simp only [strings.SplitN, OfNat.ofNat_ne_zero, if_false] at h
  have e2 : (3 : Nat) - 1 = 1 + 1 := rfl
  rw [e2, strings.genSplitLoop] at h
  cases hc1 : strings.cut '.' v.data with
  | none => simp [hc1] at h
  | some ab =>
    obtain ⟨a, b⟩ := ab
    simp only [hc1] at h
    have e1 : (1 : Nat) = 0 + 1 := rfl
    rw [e1, strings.genSplitLoop] at h
    cases hc2 : strings.cut '.' b with
    | none => simp [hc2] at h
    | some cd =>
      obtain ⟨c, d⟩ := cd
      simp only [hc2, strings.genSplitLoop, List.map_cons, List.map_nil, List.cons.injEq,
        and_true] at h
      obtain ⟨rfl, rfl, rfl⟩ := h
      rw [strings.cut_some _ _ _ _ hc1, strings.cut_some _ _ _ _ hc2]
      simp

theorem isNumericIdent_of_parseNumber {invalid leading part : String} {n : Nat}
    (h : parseNumber invalid leading part = Except.ok n) : isNumericIdent part = true := by
  unfold parseNumber at h
  rw [containsOnly_numbers] at h
  by_cases hd : part.data.all strconv.isDigit = true
  · simp only [hd, not_true_eq_false, if_false] at h
    cases hl : hasLeadingZeroes part with
    | true => simp [hl] at h
    | false =>
      simp only [hl, Bool.false_eq_true, if_false] at h
      have hne : part.data ≠ [] := by
        intro he
        have : part = "" := (strconv.data_eq_nil_iff part).mp he
        subst this
        have hP : strconv.ParseUint "" =
            (0, some (strconv.syntaxError "ParseUint" "")) := by decide
        rw [hP] at h
        cases h
      have hz : part.data.length = 1 ∨ part.data.head? ≠ some '0' := by
        by_cases h0 : part.data.head? = some '0'
        · left
          simp only [hasLeadingZeroes, h0, decide_True, Bool.and_true,
            decide_eq_false_iff_not] at hl
          have h1 := strconv.length_le_len part
          have h2 : part.data.length ≠ 0 := fun h3 => hne (List.length_eq_zero.mp h3)
          omega
        · exact Or.inr h0
      unfold isNumericIdent
      rw [hd]
      simp only [Bool.and_true, Bool.and_eq_true, decide_eq_true_eq]
      exact ⟨hne, hz⟩
  · simp [hd] at h

theorem isPrereleaseIdent_of_NewPRVersion {s : String} {pr : PRVersion}
    (h : NewPRVersion s = Except.ok pr) : isPrereleaseIdent s = true := by
  unfold NewPRVersion at h
  rw [containsOnly_numbers, containsOnly_alphanum] at h
  by_cases hl : strconv.len s = 0
  · simp [hl] at h
  · have hne : s.data ≠ [] := by
      intro he
      exact hl ((strconv.len_eq_zero_iff s).mpr ((strconv.data_eq_nil_iff s).mp he))
    simp only [hl, if_false] at h
    by_cases hd : s.data.all strconv.isDigit = true
    · simp only [hd, if_true] at h
      cases hz : hasLeadingZeroes s with
      | true => simp [hz] at h
      | false =>
        have hzz : s.data.length = 1 ∨ s.data.head? ≠ some '0' := by
          by_cases h0 : s.data.head? = some '0'
          · left
            simp only [hasLeadingZeroes, h0, decide_True, Bool.and_true,
              decide_eq_false_iff_not] at hz
            have h1 := strconv.length_le_len s
            have h2 : s.data.length ≠ 0 := fun h3 => hne (List.length_eq_zero.mp h3)
            omega
          · exact Or.inr h0
        have hid : s.data.all isIdentChar = true := by
          rw [List.all_eq_true] at hd ⊢
          intro c hc
          have := hd c hc
          simp only [strconv.isDigit, decide_eq_true_eq] at this
          simp only [isIdentChar, decide_eq_true_eq]
          exact Or.inr (Or.inr (Or.inl this))
        unfold isPrereleaseIdent isBuildIdent
        rw [hid, hd]
        simp only [Bool.and_true, Bool.not_true, Bool.false_or, Bool.and_eq_true,
          decide_eq_true_eq]
        exact ⟨hne, hzz⟩
    · simp only [hd, Bool.false_eq_true, if_false] at h
      by_cases hid : s.data.all isIdentChar = true
      · have hd2 : s.data.all strconv.isDigit = false := by simpa using hd
        simp only [isPrereleaseIdent, isBuildIdent, hid, hd2, Bool.and_true, Bool.not_false,
          Bool.true_or, decide_eq_true_eq]
        exact hne
      · simp [hid] at h

theorem isPrereleaseIdent_of_parsePrerelease (ids : List String) (pre : List PRVersion)
    (h : parsePrerelease ids = Except.ok pre) : ∀ s ∈ ids, isPrereleaseIdent s = true := by
  induction ids generalizing pre with
  | nil => intro s hs; cases hs
  | cons a rest ih =>
    rw [parsePrerelease] at h
    cases hN : NewPRVersion a with
    | error e => simp [hN] at h
    | ok pr =>
      simp only [hN] at h
      cases hR : parsePrerelease rest with
      | error e => simp [hR] at h
      | ok pre2 =>
        intro s hs
        rcases List.mem_cons.mp hs with rfl | hs
        · exact isPrereleaseIdent_of_NewPRVersion hN
        · exact ih pre2 hR s hs

theorem isBuildIdent_of_checkBuild (bids : List String) (h : checkBuild bids = none) :
    ∀ s ∈ bids, isBuildIdent s = true := by
  induction bids with
  | nil => intro s hs; cases hs
  | cons a rest ih =>
    rw [checkBuild, containsOnly_alphanum] at h
    by_cases hl : strconv.len a = 0
    · simp [hl] at h
    · simp only [hl, if_false] at h
      by_cases hid : a.data.all isIdentChar = true
      · simp only [hid, not_true_eq_false, if_false] at h
        have hne : a.data ≠ [] := by
          intro he
          exact hl ((strconv.len_eq_zero_iff a).mpr ((strconv.data_eq_nil_iff a).mp he))
        intro s hs
        rcases List.mem_cons.mp hs with rfl | hs
        · simp [isBuildIdent, hne, hid]
        · exact ih h s hs
      · simp [hid] at h

end semver

namespace semver

/-- The checks of `Parse` after the patch text, the pre-release fields and the
build fields are cut out. -/
theorem parseParts_tail_ok (major minor : Nat) (patchStr : String)
    (prerelease build : List String) (ver : Version)
    (h : (match parseNumber "Invalid character(s) found in patch number %q"
          "Patch number must not contain leading zeroes %q" patchStr with
      | Except.error err => Except.error err
      | Except.ok patch =>
        match parsePrerelease prerelease with
        | Except.error err => Except.error err
        | Except.ok pre =>
          match checkBuild build with
          | some err => Except.error err
          | none =>
            Except.ok ⟨major, minor, patch, pre, build⟩) = Except.ok ver) :
    isNumericIdent patchStr = true ∧ (∀ s ∈ prerelease, isPrereleaseIdent s = true) ∧
      (∀ s ∈ build, isBuildIdent s = true) := by
  cases h2 : parseNumber "Invalid character(s) found in patch number %q"
      "Patch number must not contain leading zeroes %q" patchStr with
  | error e => simp [h2] at h
  | ok patch =>
    simp only [h2] at h
    cases hP : parsePrerelease prerelease with
    | error e => simp [hP] at h
    | ok pre =>
      simp only [hP] at h
      cases hB : checkBuild build with
      | some e => simp [hB] at h
      | none =>
        exact ⟨isNumericIdent_of_parseNumber h2,
          isPrereleaseIdent_of_parsePrerelease _ _ hP, isBuildIdent_of_checkBuild _ hB⟩

theorem parseParts_ok (p0 p1 p2 : String) (ver : Version)
    (h : parseParts p0 p1 p2 = Except.ok ver) :
    ∃ (patch : String) (pre build : List String),
      isNumericIdent p0 = true ∧ isNumericIdent p1 = true ∧ isNumericIdent patch = true ∧
      (∀ s ∈ pre, isPrereleaseIdent s = true) ∧ (∀ s ∈ build, isBuildIdent s = true) ∧
      p2.data = patch.data ++ tagData '-' pre ++ tagData '+' build := by
  unfold parseParts at h
  cases h0 : parseNumber "Invalid character(s) found in major number %q"
      "Major number must not contain leading zeroes %q" p0 with
  | error e => simp [h0] at h
  | ok major =>
    simp only [h0] at h
    cases h1 : parseNumber "Invalid character(s) found in minor number %q"
        "Minor number must not contain leading zeroes %q" p1 with
    | error e => simp [h1] at h
    | ok minor =>
      simp only [h1] at h
      have n0 := isNumericIdent_of_parseNumber h0
      have n1 := isNumericIdent_of_parseNumber h1
      cases hplus : strings.cut '+' p2.data with
      | none =>
        simp only [hplus] at h
        cases hminus : strings.cut '-' p2.data with
        | none =>
          simp only [hminus] at h
          obtain ⟨t1, t2, t3⟩ := parseParts_tail_ok major minor p2 [] [] ver h
          exact ⟨p2, [], [], n0, n1, t1, t2, t3, by simp [tagData]⟩
        | some cd =>
          obtain ⟨c, d⟩ := cd
          simp only [hminus] at h
          obtain ⟨t1, t2, t3⟩ :=
            parseParts_tail_ok major minor ⟨c⟩ (strings.Split ⟨d⟩ '.') [] ver h
          refine ⟨⟨c⟩, strings.Split ⟨d⟩ '.', [], n0, n1, t1, t2, t3, ?_⟩
          rw [tagData_Split, strings.cut_some _ _ _ _ hminus]
          simp [tagData]
      | some ab =>
        obtain ⟨a, b⟩ := ab
        simp only [hplus] at h
        cases hminus : strings.cut '-' a with
        | none =>
          simp only [hminus] at h
          obtain ⟨t1, t2, t3⟩ :=
            parseParts_tail_ok major minor ⟨a⟩ [] (strings.Split ⟨b⟩ '.') ver h
          refine ⟨⟨a⟩, [], strings.Split ⟨b⟩ '.', n0, n1, t1, t2, t3, ?_⟩
          rw [tagData_Split, strings.cut_some _ _ _ _ hplus]
          simp [tagData]
        | some cd =>
          obtain ⟨c, d⟩ := cd
          simp only [hminus] at h
          obtain ⟨t1, t2, t3⟩ := parseParts_tail_ok major minor ⟨c⟩ (strings.Split ⟨d⟩ '.')
            (strings.Split ⟨b⟩ '.') ver h
          refine ⟨⟨c⟩, strings.Split ⟨d⟩ '.', strings.Split ⟨b⟩ '.', n0, n1, t1, t2, t3, ?_⟩
          rw [tagData_Split, tagData_Split, strings.cut_some _ _ _ _ hplus,
            strings.cut_some _ _ _ _ hminus]

/-- Soundness of `semver.Make`: every version string it accepts conforms to the
semantic-versioning grammar. -/
theorem conforms_of_Make (v : String) (ver : Version) (h : Make v = Except.ok ver) :
    ConformsToGrammar v := by
  unfold Make Parse at h
  split at h
  · cases h
  · split at h
    · rename_i p0 p1 p2 hs
      obtain ⟨patch, pre, build, n0, n1, n2, hpre, hbuild, hp2⟩ := parseParts_ok p0 p1 p2 ver h
      refine ⟨p0, p1, patch, pre, build, n0, n1, n2, hpre, hbuild, ?_⟩
      rw [SplitN_three v p0 p1 p2 hs, hp2]
      simp
    · cases h

/-- The grammar is inhabited: a version with pre-release and build tags. -/
theorem conforms_example : ConformsToGrammar "1.2.3-rc.1+build.007" :=
  conforms_of_Make "1.2.3-rc.1+build.007"
    ⟨1, 2, 3, [⟨"rc", 0, false⟩, ⟨"", 1, true⟩], ["build", "007"]⟩ (by decide)

/-- Every string of the grammar has at least two dots. -/
theorem two_dots_of_conforms (v : String) (h : ConformsToGrammar v) :
    2 ≤ v.data.count '.' := by
  obtain ⟨major, minor, patch, pre, build, _, _, _, _, _, hv⟩ := h
  rw [hv]
  simp only [List.count_append, List.count_cons_self, List.append_assoc, List.cons_append,
    List.count_cons]
  omega

end semver

/-! ## The two typed branches of the loop body -/

namespace config

theorem integerEnumLoop_eq_none_iff (es : List String) :
    integerEnumLoop es = none ↔ ∀ e ∈ es, (strconv.Atoi e).2 = none := by
  induction es with
  | nil => simp [integerEnumLoop]
  | cons e es ih =>
    rw [integerEnumLoop]
    cases h : (strconv.Atoi e).2 with
    | none => simp [h, ih]
    | some err => simp [h]

/-- The enum loop returns the error of the first element that does not parse. -/
theorem integerEnumLoop_first_error (pre post : List String) (e : String) (err : Error)
    (hpre : ∀ x ∈ pre, (strconv.Atoi x).2 = none) (he : (strconv.Atoi e).2 = some err) :
    integerEnumLoop (pre ++ e :: post) = some err := by
  induction pre with
  | nil => simp [integerEnumLoop, he]
  | cons x pre ih =>
    have hx : (strconv.Atoi x).2 = none := hpre x (List.mem_cons_self _ _)
    rw [List.cons_append, integerEnumLoop]
    simp only [hx]
    exact ih fun y hy => hpre y (List.mem_cons_of_mem _ hy)

theorem integerBranch_eq_none_iff (p : Parameter) :
    integerBranch p = none ↔
      (p.DefaultValue = "" ∨ (strconv.Atoi p.DefaultValue).2 = none) ∧
        ∀ e ∈ p.enumElems, (strconv.Atoi e).2 = none := by
  unfold integerBranch Parameter.enumElems
  by_cases hd : p.DefaultValue = ""
  · cases hE : p.Enum with
    | none => simp [hd]
    | some es => simp [hd, integerEnumLoop_eq_none_iff]
  · cases hA : (strconv.Atoi p.DefaultValue).2 with
    | some err => simp [hd, hA]
    | none =>
      cases hE : p.Enum with
      | none => simp [hd, hA]
      | some es => simp [hd, hA, integerEnumLoop_eq_none_iff]

theorem booleanBranch_eq_none_iff (p : Parameter) :
    booleanBranch p = none ↔
      (p.DefaultValue = "" ∨ (strconv.ParseBool p.DefaultValue).2 = none) ∧ p.Enum = none := by
  unfold booleanBranch
  by_cases hd : p.DefaultValue = ""
  · by_cases hE : p.Enum = none <;> simp [hd, hE]
  · cases hA : (strconv.ParseBool p.DefaultValue).2 with
    | some err => simp [hd, hA]
    | none => by_cases hE : p.Enum = none <;> simp [hd, hA, hE]

/-- What a clean verdict of `validateManifestParams` says about each entry. -/
theorem validateManifestParams_ok (params : List (Option Parameter))
    (h : validateManifestParams params = Outcome.ret none) :
    ∀ q ∈ params, ∃ p, q = some p ∧ p.Typ ≠ "" ∧
      (p.Typ = "integer" → integerBranch p = none) ∧
      (p.Typ = "boolean" → booleanBranch p = none) := by
  induction params with
  | nil => intro q hq; cases hq
  | cons a params ih =>
    cases a with
    | none => simp [validateManifestParams] at h
    | some p =>
      rw [validateManifestParams_cons] at h
      simp only [IntegerType, BooleanType] at h
      have hp : p.Typ ≠ "" ∧ (p.Typ = "integer" → integerBranch p = none) ∧
          (p.Typ = "boolean" → booleanBranch p = none) ∧
          validateManifestParams params = Outcome.ret none := by
        by_cases h0 : p.Typ = ""
        · simp [h0] at h
        · by_cases h1 : p.Typ = "integer"
          · simp only [h1] at h
            cases hb : integerBranch p with
            | some err => simp [hb] at h
            | none =>
              simp only [hb] at h
              refine ⟨h0, fun _ => rfl, ?_, by simpa using h⟩
              intro h2; rw [h1] at h2; exact absurd h2 (by decide)
          · by_cases h2 : p.Typ = "boolean"
            · simp only [h2] at h
              cases hb : booleanBranch p with
              | some err => simp [hb] at h
              | none =>
                simp only [hb] at h
                exact ⟨h0, fun h3 => absurd h3 h1, fun _ => rfl, by simpa using h⟩
            · simp only [h0, h1, h2, if_false] at h
              exact ⟨h0, fun h3 => absurd h3 h1, fun h3 => absurd h3 h2, h⟩
      intro q hq
      rcases List.mem_cons.mp hq with rfl | hq
      · exact ⟨p, rfl, hp.1, hp.2.1, hp.2.2.1⟩
      · exact ih hp.2.2.2 q hq

end config

/-! ## The claims -/

namespace config

/-- C1. Soundness of `ValidateManifest`: when it returns no error, the version
is non-empty, parses as a semantic version and is not greater than `1.0.0`,
and every parameter has a non-empty type; an integer parameter has a default
that is empty or parses with `strconv.Atoi` and an enum whose elements all
parse with `strconv.Atoi`; a boolean parameter has no enum elements and a
default that is empty or parses with `strconv.ParseBool`. -/
theorem ValidateManifest_sound (m : ManifestFile)
    (h : ValidateManifest (some m) = Outcome.ret none) :
    (m.Version ≠ "" ∧ ∃ v, semver.Make m.Version = Except.ok v ∧
        v.GT maxCompatVersion = false ∧ v.LE maxCompatVersion = true) ∧
    ∀ q ∈ m.Parameters, ∃ p, q = some p ∧ p.Typ ≠ "" ∧
      (p.Typ = "integer" →
        (p.DefaultValue = "" ∨ (strconv.Atoi p.DefaultValue).2 = none) ∧
          ∀ e ∈ p.enumElems, (strconv.Atoi e).2 = none) ∧
      (p.Typ = "boolean" →
        p.enumElems = [] ∧
          (p.DefaultValue = "" ∨ (strconv.ParseBool p.DefaultValue).2 = none)) := by
  rw [ValidateManifest_some] at h
  cases hv : validateManifestVersion m.Version with
  | some err => simp [hv] at h
  | none =>
    simp only [hv] at h
    constructor
    · have hne : m.Version ≠ "" := by
        intro h0
        rw [h0, validateManifestVersion_empty] at hv
        cases hv
      refine ⟨hne, ?_⟩
      cases hM : semver.Make m.Version with
      | error e => rw [validateManifestVersion_of_error hne hM] at hv; cases hv
      | ok v =>
        rw [validateManifestVersion_of_ok hM] at hv
        have hgt : v.GT maxCompatVersion = false := by
          cases hg : v.GT maxCompatVersion with
          | false => rfl
          | true => simp [maxCompatVersion] at hg; simp [hg] at hv
        refine ⟨v, rfl, hgt, ?_⟩
        by_contra hle
        have := (semver.GT_maxCompat_iff v).mpr hle
        rw [maxCompatVersion] at hgt
        rw [hgt] at this
        cases this
    · intro q hq
      obtain ⟨p, rfl, h0, h1, h2⟩ := validateManifestParams_ok _ h q hq
      refine ⟨p, rfl, h0, fun hi => (integerBranch_eq_none_iff p).mp (h1 hi), fun hb => ?_⟩
      obtain ⟨hd, hE⟩ := (booleanBranch_eq_none_iff p).mp (h2 hb)
      exact ⟨by simp [Parameter.enumElems, hE], hd⟩

/-- Witness of C1: the document of scenario 2,
`{version: "1.0.0", parameters: [{name: "port", type: "integer", defaultValue: "8080"}]}`. -/
theorem ValidateManifest_sound_witness :
    ValidateManifest (some ⟨"1.0.0", [some ⟨"port", "", "integer", none, "", "8080"⟩]⟩) =
        Outcome.ret none ∧
      ∃ v, semver.Make "1.0.0" = Except.ok v ∧ v.GT maxCompatVersion = false ∧
        v.LE maxCompatVersion = true :=
  ⟨by decide,
   (ValidateManifest_sound ⟨"1.0.0", [some ⟨"port", "", "integer", none, "", "8080"⟩]⟩
      (by decide)).1.2⟩

/-- C3. Version ceiling: a version string that parses as a semantic version
`v` is accepted by `validateManifestVersion` exactly when `v <= 1.0.0`, that
is when its major number is 0 or it is `1.0.0` with or without pre-release
and build fields; when `v > 1.0.0` the error is the incompatible-version error.
`"0.9.9"` and `"1.0.0"` are accepted, `"1.0.1"` and `"2.0.0"` rejected. -/
theorem validateManifestVersion_ceiling (version : String) (v : semver.Version)
    (h : semver.Make version = Except.ok v) :
    (validateManifestVersion version = none ↔ v.LE maxCompatVersion = true) ∧
    (v.LE maxCompatVersion = true ↔
      v.Major = 0 ∨ (v.Major = 1 ∧ v.Minor = 0 ∧ v.Patch = 0)) ∧
    (v.GT maxCompatVersion = true ↔ ¬ (v.LE maxCompatVersion = true)) ∧
    (v.GT maxCompatVersion = true →
      validateManifestVersion version =
        some (Error.Errorf "manifest version needs to be less than %s" "1.0.0")) ∧
    validateManifestVersion "0.9.9" = none ∧
    validateManifestVersion "1.0.0" = none ∧
    validateManifestVersion "1.0.1" =
      some (Error.Errorf "manifest version needs to be less than %s" "1.0.0") ∧
    validateManifestVersion "2.0.0" =
      some (Error.Errorf "manifest version needs to be less than %s" "1.0.0") := by
  have hgt := semver.GT_maxCompat_iff v
  refine ⟨?_, semver.LE_maxCompat_iff v, hgt, ?_, by decide, by decide, by decide, by decide⟩
  · rw [validateManifestVersion_of_ok h]
    by_cases hg : v.GT ⟨1, 0, 0, [], []⟩ = true
    · have := hgt.mp hg
      simp only [hg, if_true, maxCompatVersion]
      simp [this]
    · have hle : v.LE ⟨1, 0, 0, [], []⟩ = true := by
        by_contra hle
        exact hg (hgt.mpr hle)
      simp only [hg, maxCompatVersion, hle]
      simp
  · intro hg
    rw [validateManifestVersion_of_ok h]
    simp only [maxCompatVersion] at hg
    simp only [hg, if_true]
    rfl

/-- Witness of C3: `"1.0.1"` parses and is above the ceiling. -/
theorem validateManifestVersion_ceiling_witness :
    semver.Make "1.0.1" = Except.ok ⟨1, 0, 1, [], []⟩ ∧
      (validateManifestVersion "1.0.1" = none ↔
        semver.Version.LE ⟨1, 0, 1, [], []⟩ maxCompatVersion = true) :=
  ⟨by decide, (validateManifestVersion_ceiling "1.0.1" ⟨1, 0, 1, [], []⟩ (by decide)).1⟩

/-- C5. Malformed version: for every non-empty version string that does not
conform to the semantic-versioning grammar, `validateManifestVersion` fails,
and its error is exactly the error `semver.Make` returns for that string,
which is neither the missing-version nor the incompatible-version error.
`"abc"` and `"1.x"` fail with the parser's message for a missing
`major.minor.patch` split, `"01.0.0"` with the one for a leading zero. -/
theorem validateManifestVersion_malformed (version : String) (hne : version ≠ "")
    (h : ¬ semver.ConformsToGrammar version) :
    (∃ e, semver.Make version = Except.error e ∧
      validateManifestVersion version = some e ∧
      e ≠ Error.New "manifest file needs to provide a version" ∧
      e ≠ Error.Errorf "manifest version needs to be less than %s" "1.0.0") ∧
    validateManifestVersion "abc" = some (Error.New "No Major.Minor.Patch elements found") ∧
    validateManifestVersion "1.x" = some (Error.New "No Major.Minor.Patch elements found") ∧
    validateManifestVersion "01.0.0" =
      some (Error.Errorf "Major number must not contain leading zeroes %q" "01") := by
  refine ⟨?_, by decide, by decide, by decide⟩
  cases hM : semver.Make version with
  | ok ver => exact absurd (semver.conforms_of_Make version ver hM) h
  | error e =>
    have hp := semver.Make_error hM
    refine ⟨e, rfl, validateManifestVersion_of_error hne hM, ?_, ?_⟩
    · rintro rfl
      exact absurd hp (by decide)
    · rintro rfl
      exact absurd hp (by decide)

/-- Witness of C5: `"1.x"` has a single dot, so it is outside the grammar. -/
theorem validateManifestVersion_malformed_witness :
    ∃ e, semver.Make "1.x" = Except.error e ∧
      validateManifestVersion "1.x" = some e ∧
      e ≠ Error.New "manifest file needs to provide a version" ∧
      e ≠ Error.Errorf "manifest version needs to be less than %s" "1.0.0" :=
  (validateManifestVersion_malformed "1.x" (by decide)
    (fun hc => absurd (semver.two_dots_of_conforms "1.x" hc) (by decide))).1

/-- C2. Version before parameters: when `validateManifestVersion(m.Version)`
returns an error `e`, `ValidateManifest(m)` returns exactly `e` whatever
`m.Parameters` holds; otherwise it returns exactly what
`validateManifestParams(m.Parameters)` returns.  Version `"2.0.0"` fails with
the incompatible-version error for every parameter list. -/
theorem ValidateManifest_version_first (m : ManifestFile) :
    (∀ e, validateManifestVersion m.Version = some e →
      ∀ params, ValidateManifest (some { m with Parameters := params }) = Outcome.ret (some e)) ∧
    (validateManifestVersion m.Version = none →
      ValidateManifest (some m) = validateManifestParams m.Parameters) ∧
    (∀ params, ValidateManifest (some ⟨"2.0.0", params⟩) =
      Outcome.ret (some incompatibleVersionError)) := by
  refine ⟨?_, ?_, ?_⟩
  · intro e he params
    rw [ValidateManifest_some]
    simp only [he]
  · intro h
    rw [ValidateManifest_some, h]
  · intro params
    rw [ValidateManifest_some]
    have h : validateManifestVersion "2.0.0" = some incompatibleVersionError := by decide
    simp only [h]

/-- Witness of C2: a manifest of version `"2.0.0"` whose only parameter has no
type is rejected for its version, and a manifest of version `"1.0.0"` gets the
verdict of its parameters. -/
theorem ValidateManifest_version_first_witness :
    ValidateManifest (some ⟨"2.0.0", [some ⟨"n", "", "", none, "", ""⟩]⟩) =
        Outcome.ret (some incompatibleVersionError) ∧
      ValidateManifest (some ⟨"1.0.0", [some ⟨"n", "", "", none, "", ""⟩]⟩) =
        validateManifestParams [some ⟨"n", "", "", none, "", ""⟩] :=
  ⟨(ValidateManifest_version_first ⟨"2.0.0", []⟩).1 _ (by decide) _,
   (ValidateManifest_version_first ⟨"1.0.0", [some ⟨"n", "", "", none, "", ""⟩]⟩).2.1 (by decide)⟩

/-- C4. Missing version: `validateManifestVersion("")` fails with the
missing-version error, and so does `ValidateManifest(m)` for every manifest
with an empty version, whatever its parameters. -/
theorem ValidateManifest_missing_version (m : ManifestFile) (h : m.Version = "") :
    validateManifestVersion "" = some (Error.New "manifest file needs to provide a version") ∧
    ValidateManifest (some m) =
      Outcome.ret (some (Error.New "manifest file needs to provide a version")) := by
  refine ⟨by decide, ?_⟩
  rw [ValidateManifest_some, h, validateManifestVersion_empty]
  rfl

/-- Witness of C4: the document `{version: "", parameters: []}`. -/
theorem ValidateManifest_missing_version_witness :
    validateManifestVersion "" = some (Error.New "manifest file needs to provide a version") ∧
    ValidateManifest (some ⟨"", []⟩) =
      Outcome.ret (some (Error.New "manifest file needs to provide a version")) :=
  ValidateManifest_missing_version ⟨"", []⟩ rfl

/-- C6, as stated, fails: the boolean parameter `flag` with enum
`["true", "false"]` and default `"abc"` is rejected with the parse error of
`strconv.ParseBool("abc")`, not with the boolean-enum error, because the
default is parsed before the enum is looked at. -/
theorem boolean_enum_default_first_counterexample :
    validateManifestParams [some ⟨"flag", "", "boolean", some ["true", "false"], "", "abc"⟩] =
        Outcome.ret (some (Error.NumError "ParseBool" "abc" strconv.NumErrKind.ErrSyntax)) ∧
      validateManifestParams [some ⟨"flag", "", "boolean", some ["true", "false"], "", "abc"⟩] ≠
        Outcome.ret (some (Error.New "boolean type does not allow enums")) := by
  decide

/-- C6, amended. A boolean parameter with a non-empty enum is always rejected:
with the boolean-enum error when its default is empty or a boolean literal
`strconv.ParseBool` accepts, and with the parse error of `strconv.ParseBool`
on the default otherwise. -/
theorem boolean_enum_rejected (p : Parameter) (hT : p.Typ = "boolean")
    (hE : ∃ es, p.Enum = some es ∧ es ≠ []) :
    ((p.DefaultValue = "" ∨ (strconv.ParseBool p.DefaultValue).2 = none) →
      validateManifestParams [some p] =
        Outcome.ret (some (Error.New "boolean type does not allow enums"))) ∧
    (¬ (p.DefaultValue = "" ∨ (strconv.ParseBool p.DefaultValue).2 = none) →
      validateManifestParams [some p] =
        Outcome.ret (some (Error.NumError "ParseBool" p.DefaultValue
          strconv.NumErrKind.ErrSyntax))) := by
  obtain ⟨es, hes, -⟩ := hE
  rw [validateManifestParams_single_boolean hT]
  constructor
  · rintro (h | h)
    · simp [booleanBranch, h, hes]
    · by_cases hd : p.DefaultValue = ""
      · simp [booleanBranch, hd, hes]
      · simp [booleanBranch, hd, h, hes]
  · intro h
    have hd : p.DefaultValue ≠ "" := fun hd => h (Or.inl hd)
    have hb : (strconv.ParseBool p.DefaultValue).2 ≠ none := fun hb => h (Or.inr hb)
    have hb2 : (strconv.ParseBool p.DefaultValue).2 =
        some (Error.NumError "ParseBool" p.DefaultValue strconv.NumErrKind.ErrSyntax) := by
      unfold strconv.ParseBool at hb ⊢
      split
      · rename_i h1; simp [h1] at hb
      · split
        · rename_i h1 h2; simp [h1, h2] at hb
        · rfl
    simp [booleanBranch, hd, hb2]

/-- Witness of the amended C6: the parameter
`{name: "flag", type: "boolean", enum: ["true","false"]}`. -/
theorem boolean_enum_rejected_witness :
    validateManifestParams [some ⟨"flag", "", "boolean", some ["true", "false"], "", ""⟩] =
      Outcome.ret (some (Error.New "boolean type does not allow enums")) :=
  (boolean_enum_rejected ⟨"flag", "", "boolean", some ["true", "false"], "", ""⟩ rfl
    ⟨_, rfl, by decide⟩).1 (Or.inl rfl)

/-- C7. Integer default syntax: for an integer parameter without enum whose
non-empty default `d` has a value inside the native signed integer range
whenever it is a decimal literal, validation succeeds exactly when `d` is an
optional single leading `'+'` or `'-'` followed by one or more ASCII decimal
digits and nothing else; otherwise it fails with a `*NumError` of `Atoi` on
`d`.  `"42"` and `"8080"` succeed; `"abc"`, `" 42"`, `"4.2"`, `"4_2"` and
`"4,200"` fail. -/
theorem integer_default_decimal (p : Parameter) (hT : p.Typ = "integer") (hE : p.Enum = none)
    (hd : p.DefaultValue ≠ "")
    (hfit : strconv.isDecimalLiteral p.DefaultValue = true → strconv.fitsInt p.DefaultValue) :
    (validateManifestParams [some p] = Outcome.ret none ↔
      strconv.isDecimalLiteral p.DefaultValue = true) ∧
    (strconv.isDecimalLiteral p.DefaultValue = false →
      ∃ k, validateManifestParams [some p] =
        Outcome.ret (some (Error.NumError "Atoi" p.DefaultValue k))) ∧
    (∀ d ∈ ["42", "8080"],
      validateManifestParams [some { p with DefaultValue := d }] = Outcome.ret none) ∧
    (∀ d ∈ ["abc", " 42", "4.2", "4_2", "4,200"],
      validateManifestParams [some { p with DefaultValue := d }] =
        Outcome.ret (some (Error.NumError "Atoi" d strconv.NumErrKind.ErrSyntax))) := by
  have key : ∀ q : Parameter, q.Typ = "integer" → q.Enum = none → q.DefaultValue ≠ "" →
      validateManifestParams [some q] = Outcome.ret (strconv.Atoi q.DefaultValue).2 := by
    intro q hqT hqE hqd
    rw [validateManifestParams_single_integer hqT]
    unfold integerBranch
    simp only [hqd, ne_eq, not_false_eq_true, if_true, hqE]
    cases (strconv.Atoi q.DefaultValue).2 <;> rfl
  have key2 : ∀ d : String, d ≠ "" →
      validateManifestParams [some { p with DefaultValue := d }] =
        Outcome.ret (strconv.Atoi d).2 :=
    fun d hd2 => key { p with DefaultValue := d } hT hE hd2
  have hiff : (strconv.Atoi p.DefaultValue).2 = none ↔
      strconv.isDecimalLiteral p.DefaultValue = true := by
    rw [strconv.Atoi_ok_iff]
    exact ⟨fun h => h.1, fun h => ⟨h, Or.inr (hfit h)⟩⟩
  refine ⟨?_, ?_, ?_, ?_⟩
  · rw [key p hT hE hd, ← hiff]
    constructor
    · intro h; injection h
    · intro h; rw [h]
  · intro hlit
    rw [key p hT hE hd]
    cases hA : (strconv.Atoi p.DefaultValue).2 with
    | none => rw [hiff.mp hA] at hlit; cases hlit
    | some e =>
      obtain ⟨k, rfl⟩ := strconv.Atoi_error _ e hA
      exact ⟨k, rfl⟩
  · intro d hmem
    simp only [List.mem_cons, List.mem_singleton, List.mem_nil_iff, or_false] at hmem
    rcases hmem with rfl | rfl <;> refine (key2 _ ?_).trans ?_ <;> decide
  · intro d hmem
    simp only [List.mem_cons, List.mem_singleton, List.mem_nil_iff, or_false] at hmem
    rcases hmem with rfl | rfl | rfl | rfl | rfl <;> refine (key2 _ ?_).trans ?_ <;> decide

/-- Witness of C7: the parameter `port` of scenario 2, with default `"8080"`. -/
theorem integer_default_decimal_witness :
    validateManifestParams [some ⟨"port", "", "integer", none, "", "8080"⟩] = Outcome.ret none ↔
      strconv.isDecimalLiteral "8080" = true :=
  (integer_default_decimal ⟨"port", "", "integer", none, "", "8080"⟩ rfl rfl (by decide)
    (fun _ => by decide)).1

/-- C8. Integer enum: for an integer parameter whose default is empty or parses
with `strconv.Atoi`, validation succeeds exactly when every enum element
parses with `strconv.Atoi`, the routine that also parses the default; when it
fails, the error is the one `strconv.Atoi` gives for the first element that
does not parse. -/
theorem integer_enum_first_failure (p : Parameter) (hT : p.Typ = "integer")
    (hd : p.DefaultValue = "" ∨ (strconv.Atoi p.DefaultValue).2 = none) :
    (validateManifestParams [some p] = Outcome.ret none ↔
      ∀ e ∈ p.enumElems, (strconv.Atoi e).2 = none) ∧
    (∀ pre e post err, p.enumElems = pre ++ e :: post →
      (∀ x ∈ pre, (strconv.Atoi x).2 = none) → (strconv.Atoi e).2 = some err →
      validateManifestParams [some p] = Outcome.ret (some err)) ∧
    (∀ e, (strconv.Atoi e).2 = none ↔
      strconv.isDecimalLiteral e = true ∧ (strconv.len e < 19 ∨ strconv.fitsInt e)) := by
  rw [validateManifestParams_single_integer hT]
  refine ⟨?_, ?_, strconv.Atoi_ok_iff⟩
  · constructor
    · intro h
      have h2 : integerBranch p = none := by injection h
      exact ((integerBranch_eq_none_iff p).mp h2).2
    · intro h
      rw [(integerBranch_eq_none_iff p).mpr ⟨hd, h⟩]
  · intro pre e post err hsplit hpre he
    have hdef : (if p.DefaultValue ≠ "" then (strconv.Atoi p.DefaultValue).2 else none) = none := by
      rcases hd with h | h
      · simp [h]
      · simp [h]
    unfold integerBranch
    rw [hdef]
    simp only
    cases hE : p.Enum with
    | none =>
      simp only [Parameter.enumElems, hE, Option.getD_none] at hsplit
      exact absurd hsplit (by simp)
    | some es =>
      simp only [Parameter.enumElems, hE, Option.getD_some] at hsplit
      simp only [hsplit]
      rw [integerEnumLoop_first_error pre post e err hpre he]

/-- Witness of C8: default `"5"` and enum `["1", "x", "y"]`; the error is the
one of `"x"`. -/
theorem integer_enum_first_failure_witness :
    validateManifestParams [some ⟨"n", "", "integer", some ["1", "x", "y"], "", "5"⟩] =
      Outcome.ret (some (Error.NumError "Atoi" "x" strconv.NumErrKind.ErrSyntax)) :=
  (integer_enum_first_failure ⟨"n", "", "integer", some ["1", "x", "y"], "", "5"⟩ rfl
    (Or.inr (by decide))).2.1 ["1"] "x" ["y"] _ rfl (by decide) (by decide)

/-- C9. Boolean default: a boolean parameter without enum validates exactly
when its default is empty or one of the twelve spellings `"1"`, `"t"`, `"T"`,
`"TRUE"`, `"true"`, `"True"`, `"0"`, `"f"`, `"F"`, `"FALSE"`, `"false"`,
`"False"`; every other default fails with the parse error of
`strconv.ParseBool`, for instance `"yes"`, `"tRuE"` and `" true"`. -/
theorem boolean_default_literals (p : Parameter) (hT : p.Typ = "boolean")
    (hE : p.Enum = none) :
    (validateManifestParams [some p] = Outcome.ret none ↔
      (p.DefaultValue = "" ∨ p.DefaultValue ∈
        ["1", "t", "T", "TRUE", "true", "True", "0", "f", "F", "FALSE", "false", "False"])) ∧
    (¬ (p.DefaultValue = "" ∨ p.DefaultValue ∈
        ["1", "t", "T", "TRUE", "true", "True", "0", "f", "F", "FALSE", "false", "False"]) →
      validateManifestParams [some p] =
        Outcome.ret (some (Error.NumError "ParseBool" p.DefaultValue
          strconv.NumErrKind.ErrSyntax))) ∧
    (∀ d ∈ ["yes", "tRuE", " true"],
      validateManifestParams [some { p with DefaultValue := d }] =
        Outcome.ret (some (Error.NumError "ParseBool" d strconv.NumErrKind.ErrSyntax))) := by
  have key : ∀ q : Parameter, q.Typ = "boolean" → q.Enum = none →
      validateManifestParams [some q] =
        if q.DefaultValue = "" ∨ q.DefaultValue ∈
            ["1", "t", "T", "TRUE", "true", "True", "0", "f", "F", "FALSE", "false", "False"]
        then Outcome.ret none
        else Outcome.ret (some (Error.NumError "ParseBool" q.DefaultValue
          strconv.NumErrKind.ErrSyntax)) := by
    intro q hqT hqE
    rw [validateManifestParams_single_boolean hqT]
    by_cases hd : q.DefaultValue = ""
    · simp [booleanBranch, hd, hqE]
    · simp only [booleanBranch, hqE, strconv.ParseBool, strconv.syntaxError, hd]
      by_cases h1 : q.DefaultValue = "1" ∨ q.DefaultValue = "t" ∨ q.DefaultValue = "T" ∨
          q.DefaultValue = "true" ∨ q.DefaultValue = "TRUE" ∨ q.DefaultValue = "True"
      · have : q.DefaultValue ∈
            ["1", "t", "T", "TRUE", "true", "True", "0", "f", "F", "FALSE", "false", "False"] := by
          simp only [List.mem_cons, List.mem_singleton]; tauto
        simp [h1, this]
      · by_cases h2 : q.DefaultValue = "0" ∨ q.DefaultValue = "f" ∨ q.DefaultValue = "F" ∨
            q.DefaultValue = "false" ∨ q.DefaultValue = "FALSE" ∨ q.DefaultValue = "False"
        · have : q.DefaultValue ∈
              ["1", "t", "T", "TRUE", "true", "True", "0", "f", "F", "FALSE", "false", "False"] := by
            simp only [List.mem_cons, List.mem_singleton]; tauto
          simp [h1, h2, this]
        · have : q.DefaultValue ∉
              ["1", "t", "T", "TRUE", "true", "True", "0", "f", "F", "FALSE", "false", "False"] := by
            simp only [List.mem_cons, List.mem_singleton, List.mem_nil_iff]; tauto
          simp [h1, h2, this, hd]
  refine ⟨?_, ?_, ?_⟩
  · rw [key p hT hE]
    split <;> simp_all
  · intro h
    rw [key p hT hE, if_neg h]
  · intro d hd
    rw [key { p with DefaultValue := d } hT hE]
    simp only [List.mem_cons, List.mem_singleton, List.mem_nil_iff, or_false] at hd
    rcases hd with rfl | rfl | rfl <;> dsimp only <;> exact if_neg (by decide)

/-- Witness of C9: a boolean parameter with default `"True"` validates. -/
theorem boolean_default_literals_witness :
    validateManifestParams [some ⟨"flag", "", "boolean", none, "", "True"⟩] = Outcome.ret none :=
  (boolean_default_literals ⟨"flag", "", "boolean", none, "", "True"⟩ rfl rfl).1.2
    (Or.inr (by decide))

/-- C10. String and unknown types are unchecked: a parameter list in which
every type is non-empty and neither `"integer"` nor `"boolean"` validates,
whatever the defaults and enums are. -/
theorem other_types_unchecked (ps : List Parameter)
    (h : ∀ p ∈ ps, p.Typ ≠ "" ∧ p.Typ ≠ "integer" ∧ p.Typ ≠ "boolean") :
    validateManifestParams (ps.map some) = Outcome.ret none := by
  induction ps with
  | nil => rfl
  | cons p ps ih =>
    obtain ⟨h0, h1, h2⟩ := h p (List.mem_cons_self _ _)
    rw [List.map_cons, validateManifestParams_cons]
    simp only [IntegerType, BooleanType, h0, h1, h2, if_false]
    exact ih fun q hq => h q (List.mem_cons_of_mem _ hq)

/-- Witness of C10: parameters of type `"string"`, `"Integer"`, `"int"` and
`"float"` with defaults and enums that are no numbers and no booleans. -/
theorem other_types_unchecked_witness :
    validateManifestParams
      ([⟨"a", "", "string", some ["x", ""], "", "abc"⟩,
        ⟨"b", "", "Integer", some ["x"], "", "1.5"⟩,
        ⟨"c", "", "int", none, "", "abc"⟩,
        ⟨"d", "", "float", some [], "", " "⟩].map some) = Outcome.ret none :=
  other_types_unchecked _ (by decide)

/-! ### Claims on the parameter loop as a whole -/

theorem validateManifestParams_append (ps qs : List (Option Parameter)) :
    validateManifestParams (ps ++ qs) =
      match validateManifestParams ps with
      | Outcome.ret none => validateManifestParams qs
      | r => r := by
  induction ps with
  | nil => simp [validateManifestParams]
  | cons a ps ih =>
    cases a with
    | none => simp [validateManifestParams]
    | some p =>
      rw [List.cons_append, validateManifestParams_cons, validateManifestParams_cons, ih]
      by_cases h0 : p.Typ = ""
      · simp [h0]
      · by_cases h1 : p.Typ = IntegerType
        · simp only [h0, h1, if_true, if_false]
          cases integerBranch p <;> rfl
        · by_cases h2 : p.Typ = BooleanType
          · simp only [h0, h1, h2, if_true, if_false]
            cases booleanBranch p <;> rfl
          · simp only [h0, h1, h2, if_false]

/-- On a list without nil entries the loop never panics. -/
theorem validateManifestParams_ret (ps : List Parameter) :
    ∃ r, validateManifestParams (ps.map some) = Outcome.ret r := by
  induction ps with
  | nil => exact ⟨none, rfl⟩
  | cons p ps ih =>
    rw [List.map_cons, validateManifestParams_cons]
    split
    · exact ⟨_, rfl⟩
    · split
      · cases integerBranch p with
        | some err => exact ⟨_, rfl⟩
        | none => exact ih
      · split
        · cases booleanBranch p with
          | some err => exact ⟨_, rfl⟩
          | none => exact ih
        · exact ih

/-- C12. First failing parameter wins: `validateManifestParams(ps ++ qs)` is
what `validateManifestParams(ps)` returns when that is an error, and what
`validateManifestParams(qs)` returns when `ps` validates; the parameters
after the first invalid one never change the error. -/
theorem first_failing_parameter_wins (ps qs : List (Option Parameter)) :
    (∀ e, validateManifestParams ps = Outcome.ret (some e) →
      validateManifestParams (ps ++ qs) = Outcome.ret (some e)) ∧
    (validateManifestParams ps = Outcome.ret none →
      validateManifestParams (ps ++ qs) = validateManifestParams qs) := by
  constructor
  · intro e h
    rw [validateManifestParams_append, h]
  · intro h
    rw [validateManifestParams_append, h]

/-- Witness of C12: an invalid integer default before a parameter without
type; the error is the one of the integer default. -/
theorem first_failing_parameter_wins_witness :
    validateManifestParams ([some ⟨"a", "", "integer", none, "", "x"⟩] ++
      [some ⟨"b", "", "", none, "", ""⟩]) =
      Outcome.ret (some (Error.NumError "Atoi" "x" strconv.NumErrKind.ErrSyntax)) :=
  (first_failing_parameter_wins [some ⟨"a", "", "integer", none, "", "x"⟩]
    [some ⟨"b", "", "", none, "", ""⟩]).1 _ (by decide)

theorem ParseBool_error_shape (str : String) (e : Error)
    (h : (strconv.ParseBool str).2 = some e) :
    e = Error.NumError "ParseBool" str strconv.NumErrKind.ErrSyntax := by
  unfold strconv.ParseBool at h
  split at h
  · simp at h
  · split at h
    · simp at h
    · simpa [strconv.syntaxError] using h.symm

theorem integerEnumLoop_error_shape (es : List String) (e : Error)
    (h : integerEnumLoop es = some e) : ∃ s ∈ es, ∃ k, e = Error.NumError "Atoi" s k := by
  induction es with
  | nil => simp [integerEnumLoop] at h
  | cons a es ih =>
    rw [integerEnumLoop] at h
    cases hA : (strconv.Atoi a).2 with
    | some err =>
      simp only [hA] at h
      injection h with h
      subst h
      obtain ⟨k, hk⟩ := strconv.Atoi_error a err hA
      exact ⟨a, List.mem_cons_self _ _, k, hk⟩
    | none =>
      simp only [hA] at h
      obtain ⟨s, hs, k, hk⟩ := ih h
      exact ⟨s, List.mem_cons_of_mem _ hs, k, hk⟩

theorem integerBranch_error_shape (p : Parameter) (e : Error) (h : integerBranch p = some e) :
    ∃ s k, (s = p.DefaultValue ∨ s ∈ p.enumElems) ∧ e = Error.NumError "Atoi" s k := by
  unfold integerBranch at h
  cases hD : (if p.DefaultValue ≠ "" then (strconv.Atoi p.DefaultValue).2 else none) with
  | some err =>
    simp only [hD] at h
    injection h with h
    subst h
    by_cases hd : p.DefaultValue = ""
    · simp [hd] at hD
    · simp only [hd, ne_eq, not_false_eq_true, if_true] at hD
      obtain ⟨k, hk⟩ := strconv.Atoi_error _ err hD
      exact ⟨_, k, Or.inl rfl, hk⟩
  | none =>
    simp only [hD] at h
    cases hE : p.Enum with
    | none => simp [hE] at h
    | some es =>
      simp only [hE] at h
      obtain ⟨s, hs, k, hk⟩ := integerEnumLoop_error_shape es e h
      exact ⟨s, k, Or.inr (by simpa [Parameter.enumElems, hE] using hs), hk⟩

theorem booleanBranch_error_shape (p : Parameter) (e : Error) (h : booleanBranch p = some e) :
    e = Error.New "boolean type does not allow enums" ∨
      e = Error.NumError "ParseBool" p.DefaultValue strconv.NumErrKind.ErrSyntax := by
  unfold booleanBranch at h
  cases hD : (if p.DefaultValue ≠ "" then (strconv.ParseBool p.DefaultValue).2 else none) with
  | some err =>
    simp only [hD] at h
    injection h with h
    subst h
    by_cases hd : p.DefaultValue = ""
    · simp [hd] at hD
    · simp only [hd, ne_eq, not_false_eq_true, if_true] at hD
      exact Or.inr (ParseBool_error_shape _ _ hD)
  | none =>
    simp only [hD] at h
    split at h
    · injection h with h
      exact Or.inl h.symm
    · cases h

theorem sameTyped_branches {p q : Parameter} (h : p.sameTyped q) :
    integerBranch p = integerBranch q ∧ booleanBranch p = booleanBranch q := by
  obtain ⟨_, hE, hD⟩ := h
  simp only [integerBranch, booleanBranch, hE, hD, and_self]

/-- C13, as stated, fails: a list that fails at index 0 on the parameter named
`a` and a list that fails at index 1 on the parameter named `b`, both for a
missing type, return the very same error. -/
theorem error_without_position_counterexample :
    validateManifestParams [some ⟨"a", "", "", none, "", ""⟩] =
        Outcome.ret (some (Error.New
          "every parameter defined in manifest needs to provide a type")) ∧
      validateManifestParams
          [some ⟨"ok", "", "string", none, "", ""⟩, some ⟨"b", "", "", none, "", ""⟩] =
        validateManifestParams [some ⟨"a", "", "", none, "", ""⟩] := by
  decide

/-- C13, amended. When `validateManifestParams(ps)` fails, the error is the
fixed missing-type message, the fixed boolean-enum message, or a parse error
that quotes only the text that did not parse (the default or an enum element
of a parameter of `ps`); it names neither position nor parameter, and it stays
the same when valid parameters are put in front of `ps`. -/
theorem error_names_offending_text (ps : List (Option Parameter)) (e : Error)
    (h : validateManifestParams ps = Outcome.ret (some e)) :
    (e = Error.New "every parameter defined in manifest needs to provide a type" ∨
      e = Error.New "boolean type does not allow enums" ∨
      ∃ p, some p ∈ ps ∧ ∃ s, (s = p.DefaultValue ∨ s ∈ p.enumElems) ∧
        ((p.Typ = "integer" ∧ ∃ k, e = Error.NumError "Atoi" s k) ∨
          (p.Typ = "boolean" ∧
            e = Error.NumError "ParseBool" s strconv.NumErrKind.ErrSyntax))) ∧
    ∀ pre, validateManifestParams pre = Outcome.ret none →
      validateManifestParams (pre ++ ps) = Outcome.ret (some e) := by
  refine ⟨?_, fun pre hpre => by rw [validateManifestParams_append, hpre]; exact h⟩
  induction ps with
  | nil => simp [validateManifestParams] at h
  | cons a ps ih =>
    cases a with
    | none => simp [validateManifestParams] at h
    | some p =>
      have lift : (∃ p, some p ∈ ps ∧ ∃ s, (s = p.DefaultValue ∨ s ∈ p.enumElems) ∧
          ((p.Typ = "integer" ∧ ∃ k, e = Error.NumError "Atoi" s k) ∨
            (p.Typ = "boolean" ∧
              e = Error.NumError "ParseBool" s strconv.NumErrKind.ErrSyntax))) →
          ∃ p', some p' ∈ some p :: ps ∧ ∃ s, (s = p'.DefaultValue ∨ s ∈ p'.enumElems) ∧
          ((p'.Typ = "integer" ∧ ∃ k, e = Error.NumError "Atoi" s k) ∨
            (p'.Typ = "boolean" ∧
              e = Error.NumError "ParseBool" s strconv.NumErrKind.ErrSyntax)) := by
        rintro ⟨q, hq, rest⟩
        exact ⟨q, List.mem_cons_of_mem _ hq, rest⟩
      have tail : validateManifestParams ps = Outcome.ret (some e) →
          (e = Error.New "every parameter defined in manifest needs to provide a type" ∨
          e = Error.New "boolean type does not allow enums" ∨
          ∃ p', some p' ∈ some p :: ps ∧ ∃ s, (s = p'.DefaultValue ∨ s ∈ p'.enumElems) ∧
          ((p'.Typ = "integer" ∧ ∃ k, e = Error.NumError "Atoi" s k) ∨
            (p'.Typ = "boolean" ∧
              e = Error.NumError "ParseBool" s strconv.NumErrKind.ErrSyntax))) := by
        intro ht
        rcases ih ht with h1 | h1 | h1
        · exact Or.inl h1
        · exact Or.inr (Or.inl h1)
        · exact Or.inr (Or.inr (lift h1))
      rw [validateManifestParams_cons] at h
      simp only [IntegerType, BooleanType] at h
      by_cases h0 : p.Typ = ""
      · simp only [h0, if_true] at h
        injection h with h
        injection h with h
        exact Or.inl h.symm
      · by_cases h1 : p.Typ = "integer"
        · simp only [h1] at h
          cases hb : integerBranch p with
          | some err =>
            simp only [hb] at h
            have he : err = e := by
              injection h with h
              injection h
            subst he
            obtain ⟨s, k, hs, hk⟩ := integerBranch_error_shape p err hb
            exact Or.inr (Or.inr ⟨p, List.mem_cons_self _ _, s, hs, Or.inl ⟨h1, k, hk⟩⟩)
          | none =>
            simp only [hb] at h
            exact tail (by simpa using h)
        · by_cases h2 : p.Typ = "boolean"
          · simp only [h2] at h
            cases hb : booleanBranch p with
            | some err =>
              simp only [hb] at h
              have he : err = e := by
                simp at h
                exact h
              subst he
              rcases booleanBranch_error_shape p err hb with hk | hk
              · exact Or.inr (Or.inl hk)
              · exact Or.inr (Or.inr ⟨p, List.mem_cons_self _ _, _, Or.inl rfl,
                  Or.inr ⟨h2, hk⟩⟩)
            | none =>
              simp only [hb] at h
              exact tail (by simpa using h)
          · simp only [h0, h1, h2, if_false] at h
            exact tail h

/-- Witness of the amended C13: an enum element that is no integer; the error
quotes that element, also behind a valid parameter. -/
theorem error_names_offending_text_witness :
    validateManifestParams ([some ⟨"a", "", "string", none, "", ""⟩] ++
      [some ⟨"b", "", "integer", some ["1", "two"], "", ""⟩]) =
      Outcome.ret (some (Error.NumError "Atoi" "two" strconv.NumErrKind.ErrSyntax)) :=
  (error_names_offending_text [some ⟨"b", "", "integer", some ["1", "two"], "", ""⟩]
    (Error.NumError "Atoi" "two" strconv.NumErrKind.ErrSyntax) (by decide)).2
    [some ⟨"a", "", "string", none, "", ""⟩] (by decide)

/-- C14. Opaque fields: two parameter lists of equal length that agree position
by position on `Type`, `Enum` and `DefaultValue` get the same verdict, whatever
their `Name`, `Prompt` and `Description` are; giving every parameter the same
name changes nothing, so duplicate names are never rejected. -/
theorem opaque_fields_ignored (ps qs : List Parameter)
    (h : List.Forall₂ Parameter.sameTyped ps qs) :
    validateManifestParams (ps.map some) = validateManifestParams (qs.map some) ∧
    ∀ name : String,
      validateManifestParams (ps.map fun p => some { p with Name := name }) =
        validateManifestParams (ps.map some) := by
  have key : ∀ as bs : List Parameter, List.Forall₂ Parameter.sameTyped as bs →
      validateManifestParams (as.map some) = validateManifestParams (bs.map some) := by
    intro as bs hab
    induction hab with
    | nil => rfl
    | cons hpq _ ih =>
      rename_i p q as bs
      obtain ⟨hi, hb⟩ := sameTyped_branches hpq
      rw [List.map_cons, List.map_cons, validateManifestParams_cons,
        validateManifestParams_cons, hpq.1, hi, hb, ih]
  refine ⟨key ps qs h, fun name => ?_⟩
  have hmap : (ps.map fun p => some { p with Name := name }) =
      (ps.map fun p => { p with Name := name }).map some := by
    rw [List.map_map]; rfl
  rw [hmap]
  apply key
  clear h hmap
  induction ps with
  | nil => exact List.Forall₂.nil
  | cons p ps ih => exact List.Forall₂.cons ⟨rfl, rfl, rfl⟩ ih

/-- Witness of C14: two lists that differ in names, prompts and descriptions
only, the second with a duplicate name. -/
theorem opaque_fields_ignored_witness :
    validateManifestParams
      ([⟨"a", "p", "integer", none, "d", "1"⟩, ⟨"b", "", "boolean", none, "", "x"⟩].map some) =
    validateManifestParams
      ([⟨"n", "", "integer", none, "", "1"⟩, ⟨"n", "q", "boolean", none, "e", "x"⟩].map some) :=
  (opaque_fields_ignored _ _
    (List.Forall₂.cons ⟨rfl, rfl, rfl⟩ (List.Forall₂.cons ⟨rfl, rfl, rfl⟩ List.Forall₂.nil))).1

/-- C15. The maximum-version parse never fails: `semver.Make` accepts the
constant `maxCompatManifestVersion`, so `validateManifestVersion` is the
function without the error branch of lines 74-76, and every error it returns
is the missing-version error, the error of `semver.Make` on the input, or the
incompatible-version error. -/
theorem max_version_parse_succeeds :
    semver.Make maxCompatManifestVersion = Except.ok ⟨1, 0, 0, [], []⟩ ∧
    (∀ version, validateManifestVersion version =
      if version = "" then some (Error.New "manifest file needs to provide a version")
      else
        match semver.Make version with
        | Except.error err => some err
        | Except.ok v =>
          if v.GT ⟨1, 0, 0, [], []⟩ then
            some (Error.Errorf "manifest version needs to be less than %s" "1.0.0")
          else none) ∧
    (∀ version e, validateManifestVersion version = some e →
      e = Error.New "manifest file needs to provide a version" ∨
      (version ≠ "" ∧ semver.Make version = Except.error e) ∨
      e = Error.Errorf "manifest version needs to be less than %s" "1.0.0") := by
  have hfun : ∀ version, validateManifestVersion version =
      if version = "" then some (Error.New "manifest file needs to provide a version")
      else
        match semver.Make version with
        | Except.error err => some err
        | Except.ok v =>
          if v.GT ⟨1, 0, 0, [], []⟩ then
            some (Error.Errorf "manifest version needs to be less than %s" "1.0.0")
          else none := by
    intro version
    by_cases h0 : version = ""
    · subst h0; rfl
    · rw [if_neg h0]
      cases hM : semver.Make version with
      | error err => exact validateManifestVersion_of_error h0 hM
      | ok v => exact validateManifestVersion_of_ok hM
  refine ⟨Make_maxCompat, hfun, ?_⟩
  intro version e h
  rw [hfun] at h
  by_cases h0 : version = ""
  · rw [if_pos h0] at h
    injection h with h
    exact Or.inl h.symm
  · rw [if_neg h0] at h
    cases hM : semver.Make version with
    | error err =>
      simp only [hM] at h
      injection h with h
      subst h
      exact Or.inr (Or.inl ⟨h0, rfl⟩)
    | ok v =>
      simp only [hM] at h
      split at h
      · injection h with h
        exact Or.inr (Or.inr h.symm)
      · cases h

/-- C16, as stated, fails: a boolean parameter whose enum is present with zero
elements (`enum: []`) and whose default is empty is rejected with the
boolean-enum error, because the test of line 113 is `p.Enum != nil`. -/
theorem boolean_empty_enum_counterexample :
    validateManifestParams [some ⟨"flag", "", "boolean", some [], "", ""⟩] =
      Outcome.ret (some (Error.New "boolean type does not allow enums")) := by
  decide

/-- C16, amended. For a boolean parameter whose default is empty or a boolean
literal, validation succeeds exactly when `Enum` is nil (absent); an `Enum`
that is present is rejected with the boolean-enum error, with zero elements
as with more. -/
theorem boolean_enum_nil_only (p : Parameter) (hT : p.Typ = "boolean")
    (hd : p.DefaultValue = "" ∨ (strconv.ParseBool p.DefaultValue).2 = none) :
    (validateManifestParams [some p] = Outcome.ret none ↔ p.Enum = none) ∧
    (∀ es, p.Enum = some es →
      validateManifestParams [some p] =
        Outcome.ret (some (Error.New "boolean type does not allow enums"))) := by
  rw [validateManifestParams_single_boolean hT]
  have hdef : (if p.DefaultValue ≠ "" then (strconv.ParseBool p.DefaultValue).2 else none) =
      none := by
    rcases hd with h | h <;> simp [h]
  constructor
  · constructor
    · intro h
      have h2 : booleanBranch p = none := by injection h
      exact ((booleanBranch_eq_none_iff p).mp h2).2
    · intro h
      rw [(booleanBranch_eq_none_iff p).mpr ⟨hd, h⟩]
  · intro es hes
    unfold booleanBranch
    rw [hdef]
    simp [hes]

/-- Witness of the amended C16: the enum `[]` with the default `"true"`. -/
theorem boolean_enum_nil_only_witness :
    validateManifestParams [some ⟨"flag", "", "boolean", some [], "", "true"⟩] =
      Outcome.ret (some (Error.New "boolean type does not allow enums")) :=
  (boolean_enum_nil_only ⟨"flag", "", "boolean", some [], "", "true"⟩ rfl
    (Or.inr (by decide))).2 [] rfl

/-- Witness of C15: the error returned for `"1.x.2"` is the one of
`semver.Make`. -/
theorem max_version_parse_succeeds_witness :
    Error.Errorf "Invalid character(s) found in minor number %q" "x" =
        Error.New "manifest file needs to provide a version" ∨
      ("1.x.2" ≠ "" ∧ semver.Make "1.x.2" =
        Except.error (Error.Errorf "Invalid character(s) found in minor number %q" "x")) ∨
      Error.Errorf "Invalid character(s) found in minor number %q" "x" =
        Error.Errorf "manifest version needs to be less than %s" "1.0.0" :=
  max_version_parse_succeeds.2.2 "1.x.2" _ (by decide)

/-- C19. Empty string as default and as enum element: an integer parameter
with default `""` and no enum validates, while an enum that contains `""`
makes validation fail with a `*NumError` of `Atoi`: the default is parsed only
when it is non-empty (line 91), every enum element is parsed (line 99), and
`strconv.Atoi("")` is a syntax error.  With a default that is empty or parses
and the elements before `""` parsing, the error is the one of `""`, as for the
enum `["1", ""]`. -/
theorem integer_empty_default_vs_enum (p : Parameter) (hT : p.Typ = "integer") :
    (p.DefaultValue = "" → p.Enum = none → validateManifestParams [some p] = Outcome.ret none) ∧
    ("" ∈ p.enumElems →
      ∃ s k, validateManifestParams [some p] = Outcome.ret (some (Error.NumError "Atoi" s k))) ∧
    ((p.DefaultValue = "" ∨ (strconv.Atoi p.DefaultValue).2 = none) →
      ∀ pre post, p.enumElems = pre ++ "" :: post →
        (∀ x ∈ pre, (strconv.Atoi x).2 = none) →
        validateManifestParams [some p] =
          Outcome.ret (some (Error.NumError "Atoi" "" strconv.NumErrKind.ErrSyntax))) ∧
    validateManifestParams [some { p with DefaultValue := "", Enum := some ["1", ""] }] =
      Outcome.ret (some (Error.NumError "Atoi" "" strconv.NumErrKind.ErrSyntax)) := by
  have hempty : (strconv.Atoi "").2 =
      some (Error.NumError "Atoi" "" strconv.NumErrKind.ErrSyntax) := by decide
  have third : ∀ q : Parameter, q.Typ = "integer" →
      (q.DefaultValue = "" ∨ (strconv.Atoi q.DefaultValue).2 = none) →
      ∀ pre post, q.enumElems = pre ++ "" :: post →
        (∀ x ∈ pre, (strconv.Atoi x).2 = none) →
        validateManifestParams [some q] =
          Outcome.ret (some (Error.NumError "Atoi" "" strconv.NumErrKind.ErrSyntax)) := by
    intro q hqT hd pre post hsplit hpre
    rw [validateManifestParams_single_integer hqT]
    have hdef : (if q.DefaultValue ≠ "" then (strconv.Atoi q.DefaultValue).2 else none) =
        none := by
      rcases hd with h | h <;> simp [h]
    unfold integerBranch
    rw [hdef]
    cases hE : q.Enum with
    | none =>
      simp only [Parameter.enumElems, hE, Option.getD_none] at hsplit
      exact absurd hsplit (by simp)
    | some es =>
      simp only [Parameter.enumElems, hE, Option.getD_some] at hsplit
      simp only [hsplit]
      rw [integerEnumLoop_first_error pre post "" _ hpre hempty]
  refine ⟨?_, ?_, third p hT, ?_⟩
  · intro hd hE
    rw [validateManifestParams_single_integer hT,
      (integerBranch_eq_none_iff p).mpr ⟨Or.inl hd, by simp [Parameter.enumElems, hE]⟩]
  · intro hmem
    rw [validateManifestParams_single_integer hT]
    cases hb : integerBranch p with
    | none =>
      have := ((integerBranch_eq_none_iff p).mp hb).2 "" hmem
      rw [hempty] at this
      cases this
    | some e =>
      obtain ⟨s, k, _, hk⟩ := integerBranch_error_shape p e hb
      exact ⟨s, k, by rw [hk]⟩
  · exact third { p with DefaultValue := "", Enum := some ["1", ""] } hT (Or.inl rfl)
      ["1"] [] rfl (by decide)

/-- Witness of C19: default `"7"` and enum `["1", ""]`. -/
theorem integer_empty_default_vs_enum_witness :
    ∃ s k, validateManifestParams [some ⟨"n", "", "integer", some ["1", ""], "", "7"⟩] =
      Outcome.ret (some (Error.NumError "Atoi" s k)) :=
  (integer_empty_default_vs_enum ⟨"n", "", "integer", some ["1", ""], "", "7"⟩ rfl).2.1
    (by decide)

theorem validateManifestParams_panic_iff (params : List (Option Parameter)) :
    validateManifestParams params = Outcome.panic ↔
      ∃ pre rest, params = pre ++ none :: rest ∧
        validateManifestParams pre = Outcome.ret none := by
  induction params with
  | nil =>
    constructor
    · intro h; simp [validateManifestParams] at h
    · rintro ⟨pre, rest, h, _⟩; simp at h
  | cons a params ih =>
    cases a with
    | none =>
      constructor
      · intro _; exact ⟨[], params, rfl, rfl⟩
      · intro _; simp [validateManifestParams]
    | some p =>
      have step : ∀ r, (validateManifestParams [some p] = Outcome.ret r) →
          validateManifestParams (some p :: params) =
            match r with
            | none => validateManifestParams params
            | some e => Outcome.ret (some e) := by
        intro r hr
        have := validateManifestParams_append [some p] params
        rw [List.singleton_append, hr] at this
        rw [this]
        cases r <;> rfl
      obtain ⟨r, hr⟩ := validateManifestParams_ret [p]
      simp only [List.map_cons, List.map_nil] at hr
      rw [step r hr]
      cases r with
      | some e =>
        simp only
        constructor
        · intro h; cases h
        · rintro ⟨pre, rest, hsplit, hpre⟩
          exfalso
          cases pre with
          | nil => simp at hsplit
          | cons x pre =>
            simp only [List.cons_append, List.cons.injEq] at hsplit
            obtain ⟨rfl, -⟩ := hsplit
            have := validateManifestParams_append [some p] pre
            rw [List.singleton_append, hr, hpre] at this
            cases this
      | none =>
        simp only
        rw [ih]
        constructor
        · rintro ⟨pre, rest, hsplit, hpre⟩
          refine ⟨some p :: pre, rest, by rw [hsplit]; rfl, ?_⟩
          have := validateManifestParams_append [some p] pre
          rw [List.singleton_append, hr] at this
          rw [this]
          exact hpre
        · rintro ⟨pre, rest, hsplit, hpre⟩
          cases pre with
          | nil => simp at hsplit
          | cons x pre =>
            simp only [List.cons_append, List.cons.injEq] at hsplit
            obtain ⟨rfl, hrest⟩ := hsplit
            refine ⟨pre, rest, hrest, ?_⟩
            have := validateManifestParams_append [some p] pre
            rw [List.singleton_append, hr] at this
            rw [hpre] at this
            exact this.symm

/-- C20. Validation is total on well-formed input: the validators are total
functions, and for a non-nil manifest whose parameter list has no nil entry
`ValidateManifest` returns `nil` or an error and does not panic.  It panics
exactly on a nil manifest, or when the version is accepted and the loop
reaches a nil entry, every entry before it having fallen through. -/
theorem ValidateManifest_total :
    (∀ m : ManifestFile, (∀ q ∈ m.Parameters, q ≠ none) →
      ∃ r, ValidateManifest (some m) = Outcome.ret r) ∧
    (∀ m : Option ManifestFile, ValidateManifest m = Outcome.panic ↔
      (m = none ∨ ∃ mf, m = some mf ∧ validateManifestVersion mf.Version = none ∧
        ∃ pre rest, mf.Parameters = pre ++ none :: rest ∧
          validateManifestParams pre = Outcome.ret none)) := by
  have hpanic : ∀ mf : ManifestFile, ValidateManifest (some mf) = Outcome.panic ↔
      (validateManifestVersion mf.Version = none ∧
        ∃ pre rest, mf.Parameters = pre ++ none :: rest ∧
          validateManifestParams pre = Outcome.ret none) := by
    intro mf
    rw [ValidateManifest_some, ← validateManifestParams_panic_iff]
    cases validateManifestVersion mf.Version with
    | some e => simp
    | none => simp
  constructor
  · intro m hm
    cases h : ValidateManifest (some m) with
    | ret r => exact ⟨r, rfl⟩
    | panic =>
      obtain ⟨_, pre, rest, hsplit, _⟩ := (hpanic m).mp h
      exact absurd rfl (hm none (by rw [hsplit]; simp))
  · intro m
    cases m with
    | none => simp [ValidateManifest]
    | some mf =>
      rw [hpanic]
      simp

/-- Witness of C20: the verdict on a manifest without nil entry, and the panic
on a nil entry behind a valid parameter. -/
theorem ValidateManifest_total_witness :
    (∃ r, ValidateManifest (some ⟨"1.0.0", [some ⟨"a", "", "", none, "", ""⟩]⟩) =
      Outcome.ret r) ∧
    ValidateManifest (some ⟨"1.0.0", [some ⟨"a", "", "string", none, "", ""⟩, none]⟩) =
      Outcome.panic :=
  ⟨ValidateManifest_total.1 ⟨"1.0.0", [some ⟨"a", "", "", none, "", ""⟩]⟩ (by decide),
   (ValidateManifest_total.2 _).mpr (Or.inr ⟨_, rfl, by decide,
     [some ⟨"a", "", "string", none, "", ""⟩], [], rfl, by decide⟩)⟩

/-- C18. Integer range bound: for an integer parameter, a default or an enum
element that is a decimal literal is accepted exactly when its value lies in
`[-2^63, 2^63 - 1]`.  `"9223372036854775807"` and `"-9223372036854775808"` are
accepted; `"9223372036854775808"` and `"-9223372036854775809"` are rejected
with a `*NumError` of `Atoi` that wraps `ErrRange`. -/
theorem integer_range_bound (p : Parameter) (hT : p.Typ = "integer") (d : String)
    (hlit : strconv.isDecimalLiteral d = true) :
    (p.DefaultValue = d → p.Enum = none →
      (validateManifestParams [some p] = Outcome.ret none ↔
        (-(2 ^ 63 : Int) ≤ strconv.decimalValue d ∧ strconv.decimalValue d ≤ 2 ^ 63 - 1))) ∧
    (p.DefaultValue = "" → p.Enum = some [d] →
      (validateManifestParams [some p] = Outcome.ret none ↔
        (-(2 ^ 63 : Int) ≤ strconv.decimalValue d ∧ strconv.decimalValue d ≤ 2 ^ 63 - 1))) ∧
    (∀ x ∈ ["9223372036854775807", "-9223372036854775808"],
      validateManifestParams [some { p with DefaultValue := x, Enum := some [x] }] =
        Outcome.ret none) ∧
    (∀ x ∈ ["9223372036854775808", "-9223372036854775809"],
      validateManifestParams [some { p with DefaultValue := x, Enum := none }] =
          Outcome.ret (some (Error.NumError "Atoi" x strconv.NumErrKind.ErrRange)) ∧
        validateManifestParams [some { p with DefaultValue := "", Enum := some [x] }] =
          Outcome.ret (some (Error.NumError "Atoi" x strconv.NumErrKind.ErrRange))) := by
  have hiff := strconv.Atoi_ok_iff_fitsInt d hlit
  have hne : d ≠ "" := by
    rintro rfl
    exact absurd hlit (by decide)
  have key : ∀ q : Parameter, q.Typ = "integer" →
      validateManifestParams [some q] = Outcome.ret (integerBranch q) :=
    fun q hq => validateManifestParams_single_integer hq
  refine ⟨?_, ?_, ?_, ?_⟩
  · intro hd hE
    rw [key p hT, ← strconv.fitsInt, ← hiff]
    constructor
    · intro h
      have h2 : integerBranch p = none := by injection h
      have := ((integerBranch_eq_none_iff p).mp h2).1
      rw [hd] at this
      exact this.resolve_left hne
    · intro h
      rw [(integerBranch_eq_none_iff p).mpr
        ⟨Or.inr (by rw [hd]; exact h), by simp [Parameter.enumElems, hE]⟩]
  · intro hd hE
    rw [key p hT, ← strconv.fitsInt, ← hiff]
    constructor
    · intro h
      have h2 : integerBranch p = none := by injection h
      exact ((integerBranch_eq_none_iff p).mp h2).2 d (by simp [Parameter.enumElems, hE])
    · intro h
      rw [(integerBranch_eq_none_iff p).mpr
        ⟨Or.inl hd, by simpa [Parameter.enumElems, hE] using h⟩]
  · intro x hx
    have e1 : validateManifestParams [some { p with DefaultValue := x, Enum := some [x] }] =
        Outcome.ret (integerBranch ⟨"", "", "", some [x], "", x⟩) := key _ hT
    rw [e1]
    simp only [List.mem_cons, List.mem_singleton, List.mem_nil_iff, or_false] at hx
    rcases hx with rfl | rfl <;> decide
  · intro x hx
    have e1 : validateManifestParams [some { p with DefaultValue := x, Enum := none }] =
        Outcome.ret (integerBranch ⟨"", "", "", none, "", x⟩) := key _ hT
    have e2 : validateManifestParams [some { p with DefaultValue := "", Enum := some [x] }] =
        Outcome.ret (integerBranch ⟨"", "", "", some [x], "", ""⟩) := key _ hT
    rw [e1, e2]
    simp only [List.mem_cons, List.mem_singleton, List.mem_nil_iff, or_false] at hx
    rcases hx with rfl | rfl <;> decide

/-- Witness of C18: the default `"9223372036854775808"` is a decimal literal
outside the range. -/
theorem integer_range_bound_witness :
    validateManifestParams
        [some ⟨"n", "", "integer", none, "", "9223372036854775808"⟩] = Outcome.ret none ↔
      (-(2 ^ 63 : Int) ≤ strconv.decimalValue "9223372036854775808" ∧
        strconv.decimalValue "9223372036854775808" ≤ 2 ^ 63 - 1) :=
  (integer_range_bound ⟨"n", "", "integer", none, "", "9223372036854775808"⟩ rfl
    "9223372036854775808" (by decide)).1 rfl rfl

/-- C17, as stated, fails: `99999999999999999999` is a pre-release identifier
of the grammar (digits without leading zero), yet `"1.0.0-99999999999999999999"`
is not accepted and `"1.0.1-99999999999999999999"` is not given the
incompatible-version error: the parser keeps a numeric identifier in 64 bits
and returns the range error of `strconv.ParseUint`. -/
theorem prerelease_numeric_overflow_counterexample :
    semver.isPrereleaseIdent "99999999999999999999" = true ∧
      validateManifestVersion "1.0.0-99999999999999999999" =
        some (Error.NumError "ParseUint" "99999999999999999999" strconv.NumErrKind.ErrRange) ∧
      validateManifestVersion "1.0.1-99999999999999999999" =
        some (Error.NumError "ParseUint" "99999999999999999999" strconv.NumErrKind.ErrRange) := by
  decide

/-- C17, amended. For every build tag (dot-separated build identifiers of the
grammar) `validateManifestVersion` accepts `"1.0.0+" ++ build`.  For every
pre-release tag (dot-separated pre-release identifiers of the grammar): when
each numeric identifier is at most `2^64 - 1`, it accepts `"1.0.0-" ++ tag` and
rejects `"1.0.1-" ++ tag` and `"1.1.0-" ++ tag` with the incompatible-version
error; when some numeric identifier exceeds `2^64 - 1`, it rejects all three
with the range error of `strconv.ParseUint` on the first such identifier. -/
theorem prerelease_at_ceiling (ids bids : List String) (hids : ids ≠ []) (hbids : bids ≠ [])
    (hp : ∀ s ∈ ids, semver.isPrereleaseIdent s = true)
    (hb : ∀ s ∈ bids, semver.isBuildIdent s = true) :
    validateManifestVersion ("1.0.0+" ++ semver.joinDots bids) = none ∧
    ((∀ s ∈ ids, semver.numericFits s = true) →
      validateManifestVersion ("1.0.0-" ++ semver.joinDots ids) = none ∧
      validateManifestVersion ("1.0.1-" ++ semver.joinDots ids) =
        some (Error.Errorf "manifest version needs to be less than %s" "1.0.0") ∧
      validateManifestVersion ("1.1.0-" ++ semver.joinDots ids) =
        some (Error.Errorf "manifest version needs to be less than %s" "1.0.0")) ∧
    (∀ pre s post, ids = pre ++ s :: post → (∀ x ∈ pre, semver.numericFits x = true) →
      semver.numericFits s = false →
      validateManifestVersion ("1.0.0-" ++ semver.joinDots ids) =
        some (Error.NumError "ParseUint" s strconv.NumErrKind.ErrRange) ∧
      validateManifestVersion ("1.0.1-" ++ semver.joinDots ids) =
        some (Error.NumError "ParseUint" s strconv.NumErrKind.ErrRange) ∧
      validateManifestVersion ("1.1.0-" ++ semver.joinDots ids) =
        some (Error.NumError "ParseUint" s strconv.NumErrKind.ErrRange)) := by
  have key : ∀ (a b c : Char) (major minor patch : Nat), a ≠ '.' → b ≠ '.' → c ≠ '+' → c ≠ '-' →
      semver.parseNumber "Invalid character(s) found in major number %q"
        "Major number must not contain leading zeroes %q" ⟨[a]⟩ = Except.ok major →
      semver.parseNumber "Invalid character(s) found in minor number %q"
        "Minor number must not contain leading zeroes %q" ⟨[b]⟩ = Except.ok minor →
      semver.parseNumber "Invalid character(s) found in patch number %q"
        "Patch number must not contain leading zeroes %q" ⟨[c]⟩ = Except.ok patch →
      ∀ v : String, v.data = a :: '.' :: b :: '.' :: c :: '-' :: (semver.joinDots ids).data →
        v ≠ "" ∧ semver.Make v =
          match semver.parsePrerelease ids with
          | Except.error err => Except.error err
          | Except.ok pre => Except.ok ⟨major, minor, patch, pre, []⟩ := by
    intro a b c major minor patch ha hb2 hc1 hc2 h0 h1 h2 v hv
    refine ⟨fun h => ?_, ?_⟩
    · rw [(strconv.data_eq_nil_iff v).mpr h] at hv
      cases hv
    · rw [semver.Make, semver.Parse_of_data v a b _ hv ha hb2]
      exact semver.parseParts_prerelease_eq ⟨[a]⟩ ⟨[b]⟩
        ⟨c :: '-' :: (semver.joinDots ids).data⟩ major minor patch c ids h0 h1 h2 hc1 hc2 rfl
        hids hp
  have k0 := key '1' '0' '0' 1 0 0 (by decide) (by decide) (by decide) (by decide)
      (by decide) (by decide) (by decide) ("1.0.0-" ++ semver.joinDots ids)
      (by rw [String.data_append]; rfl)
  have k1 := key '1' '0' '1' 1 0 1 (by decide) (by decide) (by decide) (by decide)
      (by decide) (by decide) (by decide) ("1.0.1-" ++ semver.joinDots ids)
      (by rw [String.data_append]; rfl)
  have k2 := key '1' '1' '0' 1 1 0 (by decide) (by decide) (by decide) (by decide)
      (by decide) (by decide) (by decide) ("1.1.0-" ++ semver.joinDots ids)
      (by rw [String.data_append]; rfl)
  refine ⟨?_, ?_, ?_⟩
  · have hv : ("1.0.0+" ++ semver.joinDots bids).data =
        '1' :: '.' :: '0' :: '.' :: '0' :: '+' :: (semver.joinDots bids).data := by
      rw [String.data_append]; rfl
    have hM : semver.Make ("1.0.0+" ++ semver.joinDots bids) =
        Except.ok ⟨1, 0, 0, [], bids⟩ := by
      rw [semver.Make, semver.Parse_of_data _ '1' '0' _ hv (by decide) (by decide)]
      exact semver.parseParts_build _ _ _ 1 0 0 '0' bids (by decide) (by decide) (by decide)
        (by decide) (by decide) rfl hbids hb
    rw [validateManifestVersion_of_ok hM]
    have hgt : semver.Version.GT ⟨1, 0, 0, [], bids⟩ ⟨1, 0, 0, [], []⟩ = false := by
      simp [semver.Version.GT, semver.Compare_maxCompat]
    simp only [hgt, Bool.false_eq_true, if_false]
  · intro hfit
    obtain ⟨pre, hpre, _⟩ := semver.parsePrerelease_ok ids fun s hs => ⟨hp s hs, hfit s hs⟩
    rw [hpre] at k0 k1 k2
    refine ⟨?_, ?_, ?_⟩
    · rw [validateManifestVersion_of_ok k0.2]
      have hgt : semver.Version.GT ⟨1, 0, 0, pre, []⟩ ⟨1, 0, 0, [], []⟩ = false := by
        simp only [semver.Version.GT, semver.Compare_maxCompat]
        by_cases hl : pre.length = 0 <;> simp [hl]
      simp only [hgt, Bool.false_eq_true, if_false]
    · rw [validateManifestVersion_of_ok k1.2]
      have hgt : semver.Version.GT ⟨1, 0, 1, pre, []⟩ ⟨1, 0, 0, [], []⟩ = true := by
        simp [semver.Version.GT, semver.Compare_maxCompat]
      simp only [hgt, if_true]
      rfl
    · rw [validateManifestVersion_of_ok k2.2]
      have hgt : semver.Version.GT ⟨1, 1, 0, pre, []⟩ ⟨1, 0, 0, [], []⟩ = true := by
        simp [semver.Version.GT, semver.Compare_maxCompat]
      simp only [hgt, if_true]
      rfl
  · intro pre s post hsplit hfit hbig
    have hmem : s ∈ ids := by rw [hsplit]; simp
    have hover := semver.parsePrerelease_overflow pre post s
      (fun x hx => ⟨hp x (by rw [hsplit]; simp [hx]), hfit x hx⟩) (hp s hmem) hbig
    rw [← hsplit] at hover
    rw [hover] at k0 k1 k2
    exact ⟨validateManifestVersion_of_error k0.1 k0.2,
      validateManifestVersion_of_error k1.1 k1.2, validateManifestVersion_of_error k2.1 k2.2⟩

/-- Witness of the amended C17: the tag `alpha.1` and the build `build.007`. -/
theorem prerelease_at_ceiling_witness :
    validateManifestVersion ("1.0.0+" ++ semver.joinDots ["build", "007"]) = none ∧
    validateManifestVersion ("1.0.0-" ++ semver.joinDots ["alpha", "1"]) = none ∧
    validateManifestVersion ("1.0.1-" ++ semver.joinDots ["alpha", "1"]) =
      some (Error.Errorf "manifest version needs to be less than %s" "1.0.0") ∧
    validateManifestVersion ("1.1.0-" ++ semver.joinDots ["alpha", "1"]) =
      some (Error.Errorf "manifest version needs to be less than %s" "1.0.0") :=
  ⟨(prerelease_at_ceiling ["alpha", "1"] ["build", "007"] (by decide) (by decide) (by decide)
      (by decide)).1,
   (prerelease_at_ceiling ["alpha", "1"] ["build", "007"] (by decide) (by decide) (by decide)
      (by decide)).2.1 (by decide)⟩

/-- C11, as stated, fails: the list `[nil, p]` with `p.Type = ""` contains a
parameter with an empty type and is not rejected with an error; reading
`p.Type` of the nil entry in front panics. -/
theorem missing_type_behind_nil_counterexample :
    validateManifestParams [none, some ⟨"n", "", "", none, "", ""⟩] = Outcome.panic ∧
      validateManifestParams [none, some ⟨"n", "", "", none, "", ""⟩] ≠
        Outcome.ret (some (Error.New
          "every parameter defined in manifest needs to provide a type")) := by
  decide

/-- C11, amended. A parameter with an empty type, whatever its other fields,
makes `validateManifestParams([p])` fail with the missing-type error; a
parameter list that contains such a parameter and has no nil entry before it
is rejected with an error, whatever follows it (nil entries included); and no
list that contains such a parameter is ever accepted. -/
theorem missing_type_never_accepted (p : Parameter) (h : p.Typ = "") :
    validateManifestParams [some p] =
      Outcome.ret (some (Error.New
        "every parameter defined in manifest needs to provide a type")) ∧
    (∀ pre post : List (Option Parameter), (∀ q ∈ pre, q ≠ none) →
      ∃ e, validateManifestParams (pre ++ some p :: post) = Outcome.ret (some e)) ∧
    (∀ pre post : List (Option Parameter),
      validateManifestParams (pre ++ some p :: post) ≠ Outcome.ret none) := by
  have hp : ∀ rest, validateManifestParams (some p :: rest) =
      Outcome.ret (some (Error.New
        "every parameter defined in manifest needs to provide a type")) := by
    intro rest
    rw [validateManifestParams_cons, if_pos h]
  refine ⟨hp [], fun pre post hpre => ?_, fun pre post => ?_⟩
  · rw [validateManifestParams_append, hp]
    cases hv : validateManifestParams pre with
    | panic =>
      obtain ⟨a, b, hsplit, _⟩ := (validateManifestParams_panic_iff pre).mp hv
      exact absurd rfl (hpre none (by rw [hsplit]; simp))
    | ret r =>
      cases r with
      | none => exact ⟨_, rfl⟩
      | some e => exact ⟨e, rfl⟩
  · rw [validateManifestParams_append, hp]
    cases hv : validateManifestParams pre with
    | panic => simp
    | ret r => cases r <;> simp

/-- Witness of the amended C11: a parameter without type behind a valid
parameter and in front of a nil entry. -/
theorem missing_type_never_accepted_witness :
    validateManifestParams [some ⟨"n", "p", "", some ["1"], "d", "x"⟩] =
      Outcome.ret (some (Error.New
        "every parameter defined in manifest needs to provide a type")) ∧
    ∃ e, validateManifestParams ([some ⟨"a", "", "string", none, "", ""⟩] ++
      some ⟨"n", "p", "", some ["1"], "d", "x"⟩ :: [none]) = Outcome.ret (some e) :=
  ⟨(missing_type_never_accepted ⟨"n", "p", "", some ["1"], "d", "x"⟩ rfl).1,
   (missing_type_never_accepted ⟨"n", "p", "", some ["1"], "d", "x"⟩ rfl).2.1
     [some ⟨"a", "", "string", none, "", ""⟩] [none] (by decide)⟩

end config
